import Mathlib

/-!
Verification development for the HDF5 spatial-cropping and IDW-regridding
engines of the challenger-cup-fs repository.

The definitions below are shallow embeddings, over exact rational arithmetic,
of the Python functions in
  * src/src/cropper/SpaceCropping.py   (cropping engine), and
  * src/src/interpolation/main_new.py  (gap filling and block regridding).
Each definition carries a comment pointing at the source lines it embeds.
Floating-point rounding is not modelled: all numeric values are `ℚ`, and
NaN/Inf payloads (absent from every concrete scenario used here) are outside
the model.  Euclidean distances are represented by their squares, which are
rational; the source only compares distances (`d < MAX_DISTANCE`) and raises
them to the power `POWER = 2` (`1/d**2`), so every quantity the source
computes from a distance is recovered exactly from the squared distance.
-/

/-! ### Cropper: coordinate normalization and 1-D index selection
    (SpaceCropping.py, `HDF5Cropper.normalize_coordinates` lines 363-380,
    `crop_file` lines 416-421, `_get_indices` lines 504-513) -/

/-- Python's `%` on numbers: `a % n = a - n * floor(a / n)` (result has the
sign of `n`).  Used by `normalize_coordinates` lines 377-378. -/
def pymod (a n : ℚ) : ℚ := a - n * ⌊a / n⌋

/-- Longitude normalization, `((lon + 180) % 360) - 180`
(SpaceCropping.py lines 377-378). -/
def normalize_lon (lon : ℚ) : ℚ := pymod (lon + 180) 360 - 180

/-- `HDF5Cropper.normalize_coordinates` (SpaceCropping.py lines 363-380):
latitudes clamped to [-90, 90], longitudes normalized independently. -/
def normalize_coordinates (lat_min lat_max lon_min lon_max : ℚ) : ℚ × ℚ × ℚ × ℚ :=
  (max (-90) lat_min, min 90 lat_max, normalize_lon lon_min, normalize_lon lon_max)

/-- The longitude range list built in `crop_file` lines 416-421: after
normalization, if `lon_min > lon_max` the request wraps the antimeridian and
splits into `[(lon_min, 180), (-180, lon_max)]`, otherwise it is the single
range `[(lon_min, lon_max)]`. -/
def lon_ranges (lon_min lon_max : ℚ) : List (ℚ × ℚ) :=
  let m := normalize_lon lon_min
  let M := normalize_lon lon_max
  if M < m then [(m, 180), (-180, M)] else [(m, M)]

/-- Membership of a longitude in one inclusive range
(`(lons >= lo) & (lons <= hi)`, `_get_indices` line 510). -/
def in_lon_range (x : ℚ) (r : ℚ × ℚ) : Bool :=
  decide (r.1 ≤ x) && decide (x ≤ r.2)

/-- The 1-D longitude index selection of `_get_indices` lines 508-513: the
per-range `np.where` index lists are concatenated and then deduplicated and
sorted (`sorted(set(...))`); the result is exactly the ascending list of all
indices whose longitude falls in at least one range, which is what this
filter over `List.range` produces. -/
def crop_lon_indices (lons : List ℚ) (ranges : List (ℚ × ℚ)) : List ℕ :=
  (List.range lons.length).filter (fun i => ranges.any (in_lon_range (lons.getD i 0)))

/-- The 1-D latitude index selection of `_get_indices` line 506. -/
def crop_lat_indices (lats : List ℚ) (lat_min lat_max : ℚ) : List ℕ :=
  (List.range lats.length).filter
    (fun i => decide (lat_min ≤ lats.getD i 0) && decide (lats.getD i 0 ≤ lat_max))

/-! ### Cropper: dimension inference, 1-D branch
    (SpaceCropping.py, `DimensionAnalyzer.find_lat_lon_dimensions`
    lines 210-221) -/

/-- The 1-D branch of `DimensionAnalyzer.find_lat_lon_dimensions`
(SpaceCropping.py lines 210-221): one pass over `enumerate(data_shape)`
assigning `lat_dim = i` whenever `dim_size == lat_shape[0]` and
`lon_dim = i` whenever `dim_size == lon_shape[0]` (no `is None` guard, so a
later match overwrites an earlier one). -/
def find_lat_lon_dimensions_1d (latLen lonLen : ℕ) (data_shape : List ℕ) :
    Option ℕ × Option ℕ :=
  data_shape.enum.foldl
    (fun acc x =>
      ((if x.2 = latLen then some x.1 else acc.1),
       (if x.2 = lonLen then some x.1 else acc.2)))
    (none, none)

/-- Declarative description of what the loop in
`find_lat_lon_dimensions_1d` computes: the index of the last axis whose
length equals `n`, if any. -/
def last_matching_axis (n : ℕ) (data_shape : List ℕ) : Option ℕ :=
  (data_shape.enum.filterMap (fun x => if x.2 = n then some x.1 else none)).getLast?

/-! ### Theorems for claim C1 -/

/-- Claim C1: for every crop request the longitude bounds are normalized by
`lon' = ((lon + 180) mod 360) - 180` independently; if afterwards
`lon_min' > lon_max'` the selected indices are exactly those whose longitude
lies in `[lon_min', 180] ∪ [-180, lon_max']`, otherwise exactly those in
`[lon_min', lon_max']`; in particular cropping with `lon_min = 170`,
`lon_max = -170` selects every index at longitude `175` or `-175` and no
index at longitude `0`. -/
theorem c1_lon_crop_characterization :
    (∀ (lon_min lon_max : ℚ) (lons : List ℚ) (i : ℕ), i < lons.length →
      (i ∈ crop_lon_indices lons (lon_ranges lon_min lon_max) ↔
        (if normalize_lon lon_max < normalize_lon lon_min then
          (normalize_lon lon_min ≤ lons.getD i 0 ∧ lons.getD i 0 ≤ 180) ∨
            (-180 ≤ lons.getD i 0 ∧ lons.getD i 0 ≤ normalize_lon lon_max)
        else
          normalize_lon lon_min ≤ lons.getD i 0 ∧
            lons.getD i 0 ≤ normalize_lon lon_max))) ∧
    (∀ (lons : List ℚ) (i : ℕ), i < lons.length →
      ((lons.getD i 0 = 175 ∨ lons.getD i 0 = -175) →
          i ∈ crop_lon_indices lons (lon_ranges 170 (-170))) ∧
        (lons.getD i 0 = 0 → i ∉ crop_lon_indices lons (lon_ranges 170 (-170)))) := by
  have key : ∀ (lon_min lon_max : ℚ) (lons : List ℚ) (i : ℕ), i < lons.length →
      (i ∈ crop_lon_indices lons (lon_ranges lon_min lon_max) ↔
        (if normalize_lon lon_max < normalize_lon lon_min then
          (normalize_lon lon_min ≤ lons.getD i 0 ∧ lons.getD i 0 ≤ 180) ∨
            (-180 ≤ lons.getD i 0 ∧ lons.getD i 0 ≤ normalize_lon lon_max)
        else
          normalize_lon lon_min ≤ lons.getD i 0 ∧
            lons.getD i 0 ≤ normalize_lon lon_max)) := by
    intro lon_min lon_max lons i hi
    simp only [crop_lon_indices, List.mem_filter, List.mem_range, lon_ranges]
    split
    · simp [in_lon_range, hi, List.any_cons, and_assoc]
    · simp [in_lon_range, hi, List.any_cons, and_assoc]
  refine ⟨key, ?_⟩
  intro lons i hi
  have h170 : normalize_lon 170 = 170 := by norm_num [normalize_lon, pymod]
  have hm170 : normalize_lon (-170) = -170 := by norm_num [normalize_lon, pymod]
  have hiff := key 170 (-170) lons i hi
  rw [h170, hm170, if_pos (by norm_num : (-170 : ℚ) < 170)] at hiff
  constructor
  · rintro (h | h) <;> rw [hiff, h] <;> norm_num
  · intro h hmem
    rw [hiff, h] at hmem
    rcases hmem with ⟨h1, -⟩ | ⟨-, h1⟩ <;> norm_num at h1

/-- Witness for C1 at a concrete input: the list `[175, -175, 0]` cropped
with `lon_min = 170`, `lon_max = -170` keeps indices 0 and 1 and drops
index 2. -/
theorem c1_lon_crop_characterization_witness :
    0 ∈ crop_lon_indices [175, -175, 0] (lon_ranges 170 (-170)) ∧
      1 ∈ crop_lon_indices [175, -175, 0] (lon_ranges 170 (-170)) ∧
      2 ∉ crop_lon_indices [175, -175, 0] (lon_ranges 170 (-170)) :=
  ⟨(c1_lon_crop_characterization.2 [175, -175, 0] 0 (by norm_num)).1
      (by norm_num),
    (c1_lon_crop_characterization.2 [175, -175, 0] 1 (by norm_num)).1
      (by norm_num),
    (c1_lon_crop_characterization.2 [175, -175, 0] 2 (by norm_num)).2
      (by norm_num)⟩

/-! ### Theorems for claim C5 -/

/-- Helper: one step of the scan in `find_lat_lon_dimensions_1d`. -/
theorem find_lat_lon_dimensions_1d_concat (latLen lonLen a : ℕ)
    (shape : List ℕ) :
    find_lat_lon_dimensions_1d latLen lonLen (shape ++ [a]) =
      ((if a = latLen then some shape.length
          else (find_lat_lon_dimensions_1d latLen lonLen shape).1),
       (if a = lonLen then some shape.length
          else (find_lat_lon_dimensions_1d latLen lonLen shape).2)) := by
  unfold find_lat_lon_dimensions_1d
  rw [List.enum_append, List.foldl_append]
  simp [List.enumFrom]

/-- Helper: one step of `last_matching_axis`. -/
theorem last_matching_axis_concat (n a : ℕ) (shape : List ℕ) :
    last_matching_axis n (shape ++ [a]) =
      (if a = n then some shape.length else last_matching_axis n shape) := by
  unfold last_matching_axis
  rw [List.enum_append, List.filterMap_append]
  have h1 : List.filterMap (fun x : ℕ × ℕ => if x.2 = n then some x.1 else none)
      (List.enumFrom shape.length [a]) = if a = n then [shape.length] else [] := by
    by_cases h : a = n <;> simp [List.enumFrom, h]
  rw [h1]
  by_cases h : a = n
  · rw [if_pos h, if_pos h]
    exact List.getLast?_concat _
  · rw [if_neg h, if_neg h, List.append_nil]

/-- Claim C5 (amended): for rank-1 coordinate arrays, the scan in
`DimensionAnalyzer.find_lat_lon_dimensions` assigns as latitude axis the
LAST data axis whose length equals the latitude array's length, and as
longitude axis the LAST data axis whose length equals the longitude array's
length, each chosen independently (so the two returned axes coincide
whenever the last matching axes coincide). -/
theorem c5_find_lat_lon_last_match (latLen lonLen : ℕ) (data_shape : List ℕ) :
    find_lat_lon_dimensions_1d latLen lonLen data_shape =
      (last_matching_axis latLen data_shape, last_matching_axis lonLen data_shape) := by
  induction data_shape using List.reverseRecOn with
  | nil => rfl
  | append_singleton shape a ih =>
      rw [find_lat_lon_dimensions_1d_concat, last_matching_axis_concat,
        last_matching_axis_concat, ih]

/-- Counterexample for C5 as stated: with latitude and longitude arrays both
of length 2 and data shape `[2, 2]`, two matching axes exist, so the claim
requires latitude axis 0 (the first match) and longitude axis 1 (the first
other match), two distinct axes.  The code returns axis 1 for both: the scan
keeps the last match and never excludes the latitude axis when assigning the
longitude axis. -/
theorem c5_counterexample :
    find_lat_lon_dimensions_1d 2 2 [2, 2] = (some 1, some 1) := by decide

/-! ### Cropper: control flow of `crop_file` (SpaceCropping.py lines 382-437)
    and `_process_datasets` (lines 579-619)

The error-handling skeleton of the crop operation, embedded as explicit
data flow.  `crop_file` first runs `validate_input_file` (line 407; on
failure an `HDF5CropperError` is raised before the destination file is
created), then opens the destination for writing and runs `_process_file`
inside a `try` block; any exception there deletes the destination file
(lines 431-434) and re-raises as `HDF5CropperError` (line 435); on success
it returns `str(output_hdf)` only (line 437).  The fallible sub-steps of
`_process_file` are abstracted by Booleans telling whether they succeed:
`coords_present` (the lat/lon variable lookup, lines 464-466) and
`selection_nonempty` (the index computation `_get_indices`, which raises on
an empty selection, lines 526-540).  Per-variable processing outcomes are
a list of Booleans (`true` = processed), because `_process_datasets` wraps
each variable in its own `try/except` (lines 597-616) that only increments
`skipped_datasets`. -/

/-- `_process_datasets` (lines 584-618): counts processed and skipped
variables; never raises. -/
def process_datasets (var_outcomes : List Bool) : ℕ × ℕ :=
  (var_outcomes.count true, var_outcomes.count false)

/-- `_process_file` (lines 439-489): root attributes and group creation
never raise on their own; the coordinate lookup and the index computation
may; dataset processing never does. -/
def process_file (coords_present selection_nonempty : Bool)
    (var_outcomes : List Bool) : Except String (ℕ × ℕ) :=
  if ¬coords_present then .error "missing lat or lon variable"
  else if ¬selection_nonempty then .error "empty selection"
  else .ok (process_datasets var_outcomes)

/-- Result state of one `crop_file` call: the value returned (or the
`HDF5CropperError` raised), whether the destination file exists afterwards,
and the processed/skipped counts that `_process_datasets` logged. -/
structure CropOutcome where
  result : Except String String
  dest_exists : Bool
  logged_processed : ℕ
  logged_skipped : ℕ

/-- `crop_file` (lines 382-437).  Validation failure raises before the
destination is created; a failure inside the `try` block deletes the
destination and raises `HDF5CropperError`; success returns the destination
path string only. -/
def crop_file (input_valid coords_present selection_nonempty : Bool)
    (var_outcomes : List Bool) (dest : String) : CropOutcome :=
  if ¬input_valid then
    ⟨.error "input file missing or not a valid HDF5 file", false, 0, 0⟩
  else
    match process_file coords_present selection_nonempty var_outcomes with
    | .ok counts => ⟨.ok dest, true, counts.1, counts.2⟩
    | .error e => ⟨.error e, false, 0, 0⟩

/-! ### Theorems for claims C6 and C9 -/

/-- Claim C6: whenever a crop fails — for any combination of step outcomes
that produces an error — no destination file is left behind, and whenever
steps 1-6 succeed the operation completes successfully no matter how many
per-variable failures occur in step 8 (they are only counted, never
propagated). -/
theorem c6_crop_error_cleanup
    (input_valid coords_present selection_nonempty : Bool)
    (var_outcomes : List Bool) (dest : String) :
    ((crop_file input_valid coords_present selection_nonempty var_outcomes
        dest).result.isOk = false →
      (crop_file input_valid coords_present selection_nonempty var_outcomes
        dest).dest_exists = false) ∧
    (input_valid = true → coords_present = true → selection_nonempty = true →
      (crop_file input_valid coords_present selection_nonempty var_outcomes
        dest).result = .ok dest) := by
  cases input_valid <;> cases coords_present <;> cases selection_nonempty <;>
    simp [crop_file, process_file, Except.isOk, Except.toBool]

/-- Witness for C6: a concrete crop in which both data variables fail to
process still succeeds and leaves the destination in place, while a crop
with an empty selection errors out with no destination file. -/
theorem c6_crop_error_cleanup_witness :
    (crop_file true true true [false, false] "out.h5").result = .ok "out.h5" ∧
      ((crop_file true true false [true] "out.h5").result.isOk = false →
        (crop_file true true false [true] "out.h5").dest_exists = false) :=
  ⟨(c6_crop_error_cleanup true true true [false, false] "out.h5").2 rfl rfl rfl,
    (c6_crop_error_cleanup true true false [true] "out.h5").1⟩

/-- Counterexample for C9 as stated: two successful crops with different
processed/skipped tallies (one processed variable versus one processed and
one skipped) return exactly the same value, the destination path string, so
the crop entry point's return value cannot contain the summary counts the
claim says it returns; the counts are only logged. -/
theorem c9_counterexample :
    (crop_file true true true [true] "out.h5").result =
        (crop_file true true true [true, false] "out.h5").result ∧
      (process_datasets [true] ≠ process_datasets [true, false]) := by
  constructor
  · rfl
  · decide

/-- Claim C9 (amended): a successful crop returns the destination file path
and nothing else; the processed and skipped counts are computed and logged
by `_process_datasets` but are not part of the return value. -/
theorem c9_crop_returns_path_only
    (var_outcomes : List Bool) (dest : String) :
    (crop_file true true true var_outcomes dest).result = .ok dest ∧
      (crop_file true true true var_outcomes dest).logged_processed =
        var_outcomes.count true ∧
      (crop_file true true true var_outcomes dest).logged_skipped =
        var_outcomes.count false := by
  simp [crop_file, process_file, process_datasets]

/-! ### Interpolation: tuning constants (main_new.py lines 19-27)

`POWER = 2` is not a separate constant here: the weight `1/distance**POWER`
equals `1 / dist2` with `dist2` the squared Euclidean distance, which is the
exact rational this embedding carries. -/

/-- Sentinel for missing data, `-9999.9` (main_new.py line 19). -/
def CUSTOM_MISSING : ℚ := -99999/10

/-- main_new.py line 20. -/
def MAX_NEIGHBORS : ℕ := 10

/-- main_new.py line 21. -/
def MIN_NEIGHBORS : ℕ := 3

/-- main_new.py line 23. -/
def MAX_DISTANCE : ℚ := 1/2

/-- main_new.py line 24. -/
def BLOCK_SIZE : ℕ := 128

/-- A scattered source point: (longitude, latitude, value). -/
abbrev Pt := ℚ × ℚ × ℚ

/-- Squared Euclidean distance from query point `q` to source point `p`,
in (longitude, latitude) space — the metric `scipy.spatial.cKDTree` uses. -/
def dist2 (q : ℚ × ℚ) (p : Pt) : ℚ := (p.1 - q.1) ^ 2 + (p.2.1 - q.2) ^ 2

/-- Ranking relation of the k-d tree query for query point `q`: points
ordered by distance, ties broken by index (a deterministic refinement of
the unspecified tie order of `cKDTree.query`). -/
def dist_le (q : ℚ × ℚ) (a b : ℕ × Pt) : Prop :=
  dist2 q a.2 < dist2 q b.2 ∨ (dist2 q a.2 = dist2 q b.2 ∧ a.1 ≤ b.1)

instance (q : ℚ × ℚ) : DecidableRel (dist_le q) := fun a b => by
  unfold dist_le; infer_instance

instance (q : ℚ × ℚ) : IsTotal (ℕ × Pt) (dist_le q) := by
  constructor
  intro a b
  unfold dist_le
  rcases lt_trichotomy (dist2 q a.2) (dist2 q b.2) with h | h | h
  · exact Or.inl (Or.inl h)
  · rcases le_total a.1 b.1 with h2 | h2
    · exact Or.inl (Or.inr ⟨h, h2⟩)
    · exact Or.inr (Or.inr ⟨h.symm, h2⟩)
  · exact Or.inr (Or.inl h)

instance (q : ℚ × ℚ) : IsTrans (ℕ × Pt) (dist_le q) := by
  constructor
  intro a b c hab hbc
  unfold dist_le at hab hbc ⊢
  rcases hab with hab | ⟨hab, hab2⟩
  · rcases hbc with hbc | ⟨hbc, _⟩
    · exact Or.inl (hab.trans hbc)
    · exact Or.inl (hbc ▸ hab)
  · rcases hbc with hbc | ⟨hbc, hbc2⟩
    · exact Or.inl (hab ▸ hbc)
    · exact Or.inr ⟨hab.trans hbc, hab2.trans hbc2⟩

/-- The source points enumerated (to give the tie-breaking index) and sorted
by distance from `q`: the ordered neighbor list the k-d tree query returns
before truncation to `k`. -/
def ranked (q : ℚ × ℚ) (pts : List Pt) : List (ℕ × Pt) :=
  List.insertionSort (dist_le q) pts.enum

/-- `tree.query(..., k=min(MAX_NEIGHBORS, len(points)), ...)`
(main_new.py lines 170 and 226): the `k` nearest source points. -/
def k_nearest (q : ℚ × ℚ) (pts : List Pt) : List (ℕ × Pt) :=
  (ranked q pts).take (min MAX_NEIGHBORS pts.length)

/-- `valid_nb = distances[i] < MAX_DISTANCE` (main_new.py lines 174 and
234): of the `k` returned neighbors, those strictly within distance `D`
(neighbors beyond the `distance_upper_bound` come back with distance `inf`
and are likewise discarded by this strict comparison). -/
def used_neighbors (q : ℚ × ℚ) (pts : List Pt) (D : ℚ) : List (ℕ × Pt) :=
  (k_nearest q pts).filter (fun a => decide (dist2 q a.2 < D ^ 2))

/-- The per-query interpolated value (main_new.py lines 172-181 in
`preprocess_data` and lines 229-238 in `idw_interpolation`, which are the
same computation): if at least `MIN_NEIGHBORS` of the `k` nearest source
points lie strictly within `D`, the inverse-distance-weighted average with
weight `1/distance**2 = 1/dist2` normalized to sum 1, i.e.
`(Σ value/dist2) / (Σ 1/dist2)`; otherwise the sentinel.  The
`np.isscalar(distances[i])` branch of the source handles `k = 1` only,
which cannot happen: both call sites run under a guard making
`k = min(MAX_NEIGHBORS, n) ≥ MIN_NEIGHBORS = 3`. -/
def idw_value (pts : List Pt) (q : ℚ × ℚ) (D : ℚ) : ℚ :=
  let nb := used_neighbors q pts D
  if MIN_NEIGHBORS ≤ nb.length then
    (nb.map (fun a => a.2.2.2 / dist2 q a.2)).sum /
      (nb.map (fun a => 1 / dist2 q a.2)).sum
  else CUSTOM_MISSING

/-- One query of `idw_interpolation` (main_new.py lines 221-239): an early
sentinel return when fewer than `MIN_NEIGHBORS` source points exist at all,
otherwise the weighted value. -/
def idw_interp_single (pts : List Pt) (q : ℚ × ℚ) (D : ℚ) : ℚ :=
  if pts.length < MIN_NEIGHBORS then CUSTOM_MISSING else idw_value pts q D

/-- `idw_interpolation` (main_new.py lines 221-239): the per-query value for
every query point; the guard is query-independent, so the function is the
map of `idw_interp_single`. -/
def idw_interpolation (pts : List Pt) (queries : List (ℚ × ℚ)) (D : ℚ) :
    List ℚ :=
  queries.map (fun q => idw_interp_single pts q D)

/-! ### Interpolation: block partitioning and assembly
    (main_new.py, `process_block` lines 242-257, `batch_idw` lines 260-283)

`process_block` builds `np.meshgrid(lon_block, lat_block)`, flattens it
row-major into a query list, interpolates, and reshapes the flat result
back to `(i_end - i_start, j_end - j_start)`.  Under that reshape the value
at local cell `(r, c)` is the interpolated value at query point
`(lon_block[c], lat_block[r])`, which is how the embedding states it —
the meshgrid/flatten/reshape round trip is written out as direct 2-D
indexing. -/

/-- `lon_block.min()` on a nonempty block (the only way the source calls
it); 0 on the empty list. -/
def list_min (l : List ℚ) : ℚ :=
  match l with
  | [] => 0
  | x :: xs => xs.foldl min x

/-- `lon_block.max()`, as `list_min`. -/
def list_max (l : List ℚ) : ℚ :=
  match l with
  | [] => 0
  | x :: xs => xs.foldl max x

/-- The candidate filter of `process_block` lines 250-251: source points
inside the block's bounding box expanded by `MAX_DISTANCE` (here the
parameter `D`) on every side. -/
def in_range_box (lonB latB : List ℚ) (D : ℚ) (p : Pt) : Bool :=
  decide (list_min lonB - D ≤ p.1) && decide (p.1 ≤ list_max lonB + D) &&
    decide (list_min latB - D ≤ p.2.1) && decide (p.2.1 ≤ list_max latB + D)

/-- One tile of the target grid, by half-open index ranges
`[iS, iE) × [jS, jE)`. -/
structure Blk where
  iS : ℕ
  iE : ℕ
  jS : ℕ
  jE : ℕ
  deriving DecidableEq

/-- `process_block` (main_new.py lines 242-257) at local cell `(r, c)` of
block `b`: slice the grid axes, select candidate points, return the
sentinel for the whole block if fewer than `MIN_NEIGHBORS` candidates
exist, otherwise interpolate the cell's query point against the
candidates. -/
def process_block (pts : List Pt) (grid_lon grid_lat : List ℚ) (D : ℚ)
    (b : Blk) (r c : ℕ) : ℚ :=
  let lonB := (grid_lon.drop b.jS).take (b.jE - b.jS)
  let latB := (grid_lat.drop b.iS).take (b.iE - b.iS)
  let inR := pts.filter (in_range_box lonB latB D)
  if inR.length < MIN_NEIGHBORS then CUSTOM_MISSING
  else idw_interp_single inR (lonB.getD c 0, latB.getD r 0) D

/-- `range(0, n, BLOCK_SIZE)` (main_new.py lines 264 and 266). -/
def block_starts (n : ℕ) : List ℕ :=
  (List.range ((n + BLOCK_SIZE - 1) / BLOCK_SIZE)).map (· * BLOCK_SIZE)

/-- The block list built in `batch_idw` lines 263-268. -/
def blocks (nLat nLon : ℕ) : List Blk :=
  (block_starts nLat).flatMap (fun i =>
    (block_starts nLon).map (fun j =>
      ⟨i, min (i + BLOCK_SIZE) nLat, j, min (j + BLOCK_SIZE) nLon⟩))

/-- Whether global cell `rc = (row, col)` lies in block `b`'s index region. -/
def covers (b : Blk) (rc : ℕ × ℕ) : Bool :=
  decide (b.iS ≤ rc.1) && decide (rc.1 < b.iE) &&
    decide (b.jS ≤ rc.2) && decide (rc.2 < b.jE)

/-- `result[i_s:i_e, j_s:j_e] = block_result` (main_new.py lines 274 and
278): writing one block's result into the output array, represented as a
function from global cell to value. -/
def write_block (pts : List Pt) (grid_lon grid_lat : List ℚ) (D : ℚ)
    (f : ℕ × ℕ → ℚ) (b : Blk) : ℕ × ℕ → ℚ :=
  fun rc =>
    if covers b rc then
      process_block pts grid_lon grid_lat D b (rc.1 - b.iS) (rc.2 - b.jS)
    else f rc

/-- `batch_idw` (main_new.py lines 260-283): start from an array full of
the sentinel (line 270) and write every block's result into its region, in
the order the block list was built (the sequential branch, lines 276-278). -/
def batch_idw (pts : List Pt) (grid_lon grid_lat : List ℚ) (D : ℚ) :
    ℕ × ℕ → ℚ :=
  (blocks grid_lat.length grid_lon.length).foldl
    (write_block pts grid_lon grid_lat D) (fun _ => CUSTOM_MISSING)

/-- All cells of the output grid, row-major. -/
def grid_cells (nLat nLon : ℕ) : List (ℕ × ℕ) :=
  (List.range nLat).flatMap (fun r => (List.range nLon).map (fun c => (r, c)))

/-- `valid_count = np.sum(result != CUSTOM_MISSING)` (main_new.py line
280): the number of non-sentinel cells of the assembled output. -/
def valid_count (pts : List Pt) (grid_lon grid_lat : List ℚ) (D : ℚ) : ℕ :=
  (grid_cells grid_lat.length grid_lon.length).countP
    (fun rc => decide (batch_idw pts grid_lon grid_lat D rc ≠ CUSTOM_MISSING))

/-- The block that the tiling of `batch_idw` assigns to global cell
`rc` in a `nLat × nLon` grid. -/
def block_of (nLat nLon : ℕ) (rc : ℕ × ℕ) : Blk :=
  ⟨BLOCK_SIZE * (rc.1 / BLOCK_SIZE),
    min (BLOCK_SIZE * (rc.1 / BLOCK_SIZE) + BLOCK_SIZE) nLat,
    BLOCK_SIZE * (rc.2 / BLOCK_SIZE),
    min (BLOCK_SIZE * (rc.2 / BLOCK_SIZE) + BLOCK_SIZE) nLon⟩

/-- The condition under which the code path through `process_block` and
`idw_value` assigns an interpolated value to global cell `rc` (rather than
leaving the sentinel): the cell's block has at least `MIN_NEIGHBORS`
candidate points, and at least `MIN_NEIGHBORS` of the `k` nearest
candidates lie strictly within `D` of the cell's query point. -/
def cell_assigned (pts : List Pt) (grid_lon grid_lat : List ℚ) (D : ℚ)
    (rc : ℕ × ℕ) : Bool :=
  let b := block_of grid_lat.length grid_lon.length rc
  let lonB := (grid_lon.drop b.jS).take (b.jE - b.jS)
  let latB := (grid_lat.drop b.iS).take (b.iE - b.iS)
  let inR := pts.filter (in_range_box lonB latB D)
  let q := (lonB.getD (rc.2 - b.jS) 0, latB.getD (rc.1 - b.iS) 0)
  decide (MIN_NEIGHBORS ≤ inR.length) &&
    decide (MIN_NEIGHBORS ≤ (used_neighbors q inR D).length)

/-! ### Interpolation: per-layer gap filling
    (main_new.py, `preprocess_data` lines 148-185)

The 2-D coordinate and data arrays are carried flattened row-major (the
order in which `longitude[missing_mask]` and the boolean-mask assignment
`data_layer[missing_mask] = interpolated_values` enumerate cells), with the
row length `nCols` passed where NumPy shape rules need it.  `np.isnan` /
`np.isinf` tests are outside the rational model, so a cell is missing here
exactly when it holds the sentinel. -/

/-- `coord_valid` (main_new.py lines 149-151) at flat cell `i`. -/
def coord_valid_at (lon lat : List ℚ) (i : ℕ) : Bool :=
  decide (-180 ≤ lon.getD i 0) && decide (lon.getD i 0 ≤ 180) &&
    decide (-90 ≤ lat.getD i 0) && decide (lat.getD i 0 ≤ 90)

/-- `missing_mask` (lines 158-159) at flat cell `i`: sentinel-valued and at
a coordinate-valid location. -/
def missing_at (lon lat layer : List ℚ) (i : ℕ) : Bool :=
  decide (layer.getD i 0 = CUSTOM_MISSING) && coord_valid_at lon lat i

/-- Flat indices of the missing cells, in row-major (ascending) order. -/
def missing_indices (lon lat layer : List ℚ) : List ℕ :=
  (List.range layer.length).filter (missing_at lon lat layer)

/-- `valid_mask = ~missing_mask & coord_valid` (line 162): flat indices of
the valid samples. -/
def valid_indices (lon lat layer : List ℚ) : List ℕ :=
  (List.range layer.length).filter
    (fun i => !missing_at lon lat layer i && coord_valid_at lon lat i)

/-- The valid samples as scattered points
(`valid_lon_layer, valid_lat_layer, valid_data_layer`, lines 163-165). -/
def valid_points (lon lat layer : List ℚ) : List Pt :=
  (valid_indices lon lat layer).map
    (fun i => (lon.getD i 0, lat.getD i 0, layer.getD i 0))

/-- `interpolated_values` (lines 172-181): one value per missing cell, the
same per-query computation as `idw_value` (the layer pass fixes
`D = MAX_DISTANCE` and `k = min(MAX_NEIGHBORS, #valid)`). -/
def interpolated_values (lon lat layer : List ℚ) : List ℚ :=
  (missing_indices lon lat layer).map
    (fun i => idw_value (valid_points lon lat layer)
      (lon.getD i 0, lat.getD i 0) MAX_DISTANCE)

/-- One layer of the gap-filling loop (main_new.py lines 156-185), with the
layer's initial global-valid mask equal to the coordinate-valid mask.
Returns the filled layer and the updated global-valid mask; returns an
error when line 185's NumPy expression
`global_valid &= ~(missing_mask & (interpolated_values == CUSTOM_MISSING))`
is a shape error, which it is unless the 1-D `interpolated_values` (length
= number of missing cells) broadcasts against the 2-D `missing_mask` of row
length `nCols`, i.e. unless that length is 1 or `nCols`. -/
def gap_fill_layer (nCols : ℕ) (lon lat layer : List ℚ) :
    Except String (List ℚ × List Bool) :=
  let cv := (List.range layer.length).map (coord_valid_at lon lat)
  let miss := missing_indices lon lat layer
  if 0 < miss.length then
    let vp := valid_points lon lat layer
    if MIN_NEIGHBORS ≤ vp.length then
      let iv := interpolated_values lon lat layer
      let newLayer := (miss.zip iv).foldl (fun l x => l.set x.1 x.2) layer
      let ivb := iv.map (fun v => decide (v = CUSTOM_MISSING))
      if iv.length = 1 then
        .ok (newLayer, (List.range layer.length).map (fun i =>
          coord_valid_at lon lat i &&
            !(missing_at lon lat layer i && ivb.getD 0 false)))
      else if iv.length = nCols then
        .ok (newLayer, (List.range layer.length).map (fun i =>
          coord_valid_at lon lat i &&
            !(missing_at lon lat layer i && ivb.getD (i % nCols) false)))
      else
        .error "operands could not be broadcast together"
    else .ok (layer, cv)
  else .ok (layer, cv)

/-! ### Theorems for claim C2 -/

/-- Claim C2 (amended): in the gap-filling pass of main_new.py, a layer with
at least one missing cell but fewer than `MIN_NEIGHBORS = 3` valid samples
is returned entirely unchanged: no cell is filled (with the layer mean or
anything else) and the global-valid mask stays the coordinate-valid mask,
so the previously-missing cells are NOT marked invalid. -/
theorem c2_degenerate_layer_unchanged (nCols : ℕ) (lon lat layer : List ℚ)
    (hmiss : 0 < (missing_indices lon lat layer).length)
    (hval : (valid_points lon lat layer).length < MIN_NEIGHBORS) :
    gap_fill_layer nCols lon lat layer =
      .ok (layer, (List.range layer.length).map (coord_valid_at lon lat)) := by
  unfold gap_fill_layer
  rw [if_pos hmiss, if_neg (Nat.not_le.mpr hval)]

/-- Witness for C2 (amended) at a concrete input: a 1 × 3 layer
`[5, -9999.9, 7]` with all coordinates valid has one missing cell and two
valid samples, and comes back unchanged with an all-true mask. -/
theorem c2_degenerate_layer_unchanged_witness :
    0 < (missing_indices [0, 1/10, 1/5] [0, 0, 0]
        [5, CUSTOM_MISSING, 7]).length ∧
      (valid_points [0, 1/10, 1/5] [0, 0, 0]
        [5, CUSTOM_MISSING, 7]).length < MIN_NEIGHBORS ∧
      gap_fill_layer 3 [0, 1/10, 1/5] [0, 0, 0] [5, CUSTOM_MISSING, 7] =
        .ok ([5, CUSTOM_MISSING, 7],
          (List.range ([5, CUSTOM_MISSING, 7] : List ℚ).length).map
            (coord_valid_at [0, 1/10, 1/5] [0, 0, 0])) :=
  ⟨by norm_num [missing_indices, missing_at, coord_valid_at, CUSTOM_MISSING,
      List.range_succ],
    by norm_num [valid_points, valid_indices, missing_at, coord_valid_at,
      CUSTOM_MISSING, MIN_NEIGHBORS, List.range_succ],
    c2_degenerate_layer_unchanged 3 [0, 1/10, 1/5] [0, 0, 0]
      [5, CUSTOM_MISSING, 7]
      (by norm_num [missing_indices, missing_at, coord_valid_at,
        CUSTOM_MISSING, List.range_succ])
      (by norm_num [valid_points, valid_indices, missing_at, coord_valid_at,
        CUSTOM_MISSING, MIN_NEIGHBORS, List.range_succ])⟩

/-- Counterexample for C2 as stated: the 1 × 3 layer `[5, -9999.9, 7]` with
valid coordinates has one missing cell and only 2 valid samples (fewer than
5, and fewer than the actual threshold `MIN_NEIGHBORS = 3`).  The claim
says the missing cell is filled with the mean of the valid cells,
`(5 + 7) / 2 = 6`, and marked invalid; the code leaves the cell at the
sentinel `-9999.9 ≠ 6` and leaves it marked valid (`true` at position 1 of
the returned mask): main_new.py has no mean-fill fallback at all. -/
theorem c2_counterexample :
    gap_fill_layer 3 [0, 1/10, 1/5] [0, 0, 0] [5, CUSTOM_MISSING, 7] =
        .ok ([5, CUSTOM_MISSING, 7], [true, true, true]) ∧
      CUSTOM_MISSING ≠ ((5 : ℚ) + 7) / 2 := by
  constructor
  · norm_num [gap_fill_layer, missing_indices, missing_at, coord_valid_at,
      valid_points, valid_indices, CUSTOM_MISSING, MIN_NEIGHBORS,
      List.range_succ]
  · norm_num [CUSTOM_MISSING]

/-! ### Interpolation: target grid construction
    (main_new.py, `create_interpolation_grid` lines 214-218) -/

/-- `np.arange(start, stop, step)` for a positive rational step: the values
`start + i * step` for `0 ≤ i < ceil((stop - start) / step)`. -/
def arange (start stop step : ℚ) : List ℚ :=
  (List.range (Int.toNat ⌈(stop - start) / step⌉)).map
    (fun i : ℕ => start + (i : ℚ) * step)

/-- `create_interpolation_grid` (main_new.py lines 214-218):
`grid_lon = np.arange(lon_min, lon_max, resolution)` and likewise for
latitude — no margin and no clamping appear in this version. -/
def create_interpolation_grid (lon_min lon_max lat_min lat_max resolution : ℚ) :
    List ℚ × List ℚ :=
  (arange lon_min lon_max resolution, arange lat_min lat_max resolution)

/-- Membership in `arange` for a positive step. -/
theorem arange_mem_iff (start stop step : ℚ) (hstep : 0 < step) (x : ℚ) :
    x ∈ arange start stop step ↔
      ∃ i : ℕ, x = start + i * step ∧ start + i * step < stop := by
  unfold arange
  constructor
  · intro hx
    rcases List.mem_map.mp hx with ⟨i, hi, hxe⟩
    rw [List.mem_range] at hi
    refine ⟨i, hxe.symm, ?_⟩
    have h1 : (i : ℤ) < ⌈(stop - start) / step⌉ := Int.lt_toNat.mp hi
    have h2 : (i : ℚ) < (stop - start) / step := by
      exact_mod_cast Int.lt_ceil.mp h1
    have h3 : (i : ℚ) * step < stop - start := (lt_div_iff₀ hstep).mp h2
    linarith
  · rintro ⟨i, rfl, hlt⟩
    apply List.mem_map.mpr
    refine ⟨i, ?_, rfl⟩
    rw [List.mem_range, Int.lt_toNat, Int.lt_ceil]
    have h2 : (i : ℚ) < (stop - start) / step := by
      rw [lt_div_iff₀ hstep]; linarith
    exact_mod_cast h2

/-! ### Theorems for claim C4 -/

/-- Claim C4 (amended): the target grid's longitude axis spans
`[lon_min, lon_max)` in steps of the requested resolution — its members are
exactly the values `lon_min + i * resolution` that are below `lon_max` —
and likewise for latitude; no margin is added to the extent in
main_new.py's `create_interpolation_grid`. -/
theorem c4_grid_spans_extent_without_margin
    (lon_min lon_max lat_min lat_max res : ℚ) (hres : 0 < res) :
    (∀ x ∈ (create_interpolation_grid lon_min lon_max lat_min lat_max res).1,
        lon_min ≤ x ∧ x < lon_max) ∧
      (∀ i : ℕ, lon_min + i * res < lon_max →
        lon_min + i * res ∈
          (create_interpolation_grid lon_min lon_max lat_min lat_max res).1) ∧
      (∀ x ∈ (create_interpolation_grid lon_min lon_max lat_min lat_max res).2,
        lat_min ≤ x ∧ x < lat_max) ∧
      (∀ i : ℕ, lat_min + i * res < lat_max →
        lat_min + i * res ∈
          (create_interpolation_grid lon_min lon_max lat_min lat_max res).2) := by
  have key : ∀ lo hi : ℚ, (∀ x ∈ arange lo hi res, lo ≤ x ∧ x < hi) ∧
      (∀ i : ℕ, lo + i * res < hi → lo + i * res ∈ arange lo hi res) := by
    intro lo hi
    constructor
    · intro x hx
      rcases (arange_mem_iff lo hi res hres x).mp hx with ⟨i, rfl, hlt⟩
      refine ⟨?_, hlt⟩
      have : (0 : ℚ) ≤ (i : ℚ) * res :=
        mul_nonneg (by positivity) hres.le
      linarith
    · intro i hlt
      exact (arange_mem_iff lo hi res hres _).mpr ⟨i, rfl, hlt⟩
  exact ⟨(key lon_min lon_max).1, (key lon_min lon_max).2,
    (key lat_min lat_max).1, (key lat_min lat_max).2⟩

/-- Witness for C4 (amended) at a concrete input: with extent `[0, 1]` in
both axes and resolution `1/2`, the grid longitude axis is `[0, 1/2]`, its
members lie in `[0, 1)`, and `0 + 1 * (1/2) < 1` puts `1/2` in the axis. -/
theorem c4_grid_spans_extent_without_margin_witness :
    (0 : ℚ) < 1/2 ∧
      (0 : ℚ) + (1 : ℕ) * (1/2 : ℚ) ∈
        (create_interpolation_grid 0 1 0 1 (1/2)).1 :=
  ⟨by norm_num,
    (c4_grid_spans_extent_without_margin 0 1 0 1 (1/2) (by norm_num)).2.1 1
      (by norm_num)⟩

/-- Counterexample for C4 as stated: with valid-data extent `[0, 1]` in both
axes and resolution `1/2`, the claim's margin is
`max (2 * (1/2)) (1/10) = 1`, so the claimed longitude axis spans `[-1, 2)`
and contains its first point `-1`.  The code builds
`np.arange(0, 1, 1/2) = [0, 1/2]`, which does not contain `-1`: no margin
is applied. -/
theorem c4_counterexample :
    (create_interpolation_grid 0 1 0 1 (1/2)).1 = [0, 1/2] ∧
      ((0 : ℚ) - max (2 * (1/2)) (1/10) = -1) ∧
      (-1 : ℚ) ∉ (create_interpolation_grid 0 1 0 1 (1/2)).1 := by
  refine ⟨?_, by norm_num, ?_⟩
  · show arange 0 1 (1/2) = [0, 1/2]
    unfold arange
    rw [show (⌈((1 : ℚ) - 0) / (1/2)⌉) = 2 by norm_num,
      show Int.toNat 2 = 2 from rfl]
    norm_num [List.range_succ]
  · show (-1 : ℚ) ∉ arange 0 1 (1/2)
    unfold arange
    rw [show (⌈((1 : ℚ) - 0) / (1/2)⌉) = 2 by norm_num,
      show Int.toNat 2 = 2 from rfl]
    norm_num [List.range_succ]

/-! ### Neighbor-selection lemmas

The k-d tree query returns neighbors in nondecreasing distance order, so
among the `k` nearest the ones strictly within the distance bound form a
prefix, and their number is `min k m` where `m` counts all source points
strictly within the bound. -/

/-- On a sorted list, a downward-closed predicate selects a prefix. -/
theorem filter_eq_takeWhile_of_sorted {α : Type} (r : α → α → Prop)
    (p : α → Bool) :
    ∀ S : List α, List.Sorted r S → (∀ a b, r a b → p b = true → p a = true) →
      S.filter p = S.takeWhile p := by
  intro S
  induction S with
  | nil => intro _ _; rfl
  | cons x xs ih =>
    intro hs hdc
    rw [List.sorted_cons] at hs
    by_cases hx : p x
    · rw [List.filter_cons_of_pos hx, List.takeWhile_cons_of_pos hx,
        ih hs.2 hdc]
    · have hall : List.filter p xs = [] := by
        rw [List.filter_eq_nil_iff]
        intro b hb hpb
        exact hx (hdc x b (hs.1 b hb) (by simpa using hpb))
      rw [List.filter_cons_of_neg hx, List.takeWhile_cons_of_neg hx, hall]

/-- The distance-bound predicate is downward closed along `dist_le q`. -/
theorem dist_bound_downward_closed (q : ℚ × ℚ) (D : ℚ) :
    ∀ a b : ℕ × Pt, dist_le q a b →
      decide (dist2 q b.2 < D ^ 2) = true →
      decide (dist2 q a.2 < D ^ 2) = true := by
  intro a b hab hb
  rw [decide_eq_true_iff] at hb ⊢
  rcases hab with h | ⟨h, -⟩
  · exact h.trans hb
  · exact h ▸ hb

/-- How many of the `k` returned neighbors pass the strict distance test:
`min k m`, with `m` the number of source points strictly within `D`. -/
theorem used_neighbors_length (q : ℚ × ℚ) (pts : List Pt) (D : ℚ) :
    (used_neighbors q pts D).length =
      min (min MAX_NEIGHBORS pts.length)
        (pts.countP (fun p => decide (dist2 q p < D ^ 2))) := by
  unfold used_neighbors k_nearest
  have hsort : List.Sorted (dist_le q) (ranked q pts) :=
    List.sorted_insertionSort _ _
  have hsort_take :
      List.Sorted (dist_le q)
        ((ranked q pts).take (min MAX_NEIGHBORS pts.length)) :=
    List.Pairwise.sublist (List.take_sublist _ _) hsort
  rw [filter_eq_takeWhile_of_sorted (dist_le q) _ _ hsort_take
      (dist_bound_downward_closed q D),
    ← List.take_takeWhile, List.length_take,
    ← filter_eq_takeWhile_of_sorted (dist_le q) _ _ hsort
      (dist_bound_downward_closed q D),
    ← List.countP_eq_length_filter]
  have hperm : (ranked q pts).Perm pts.enum :=
    List.perm_insertionSort (dist_le q) pts.enum
  rw [hperm.countP_eq]
  have hmap : List.countP (fun a : ℕ × Pt => decide (dist2 q a.2 < D ^ 2))
      pts.enum =
      pts.countP (fun p => decide (dist2 q p < D ^ 2)) := by
    have h := List.countP_map (fun p : Pt => decide (dist2 q p < D ^ 2))
      Prod.snd pts.enum
    rw [List.enum_map_snd] at h
    rw [h]
    rfl
  rw [hmap]

/-- The branch test of `idw_value` restated globally: when at least
`MIN_NEIGHBORS` source points exist, at least `MIN_NEIGHBORS` of the `k`
nearest pass the distance test iff at least `MIN_NEIGHBORS` source points
lie strictly within `D` at all. -/
theorem used_neighbors_card_iff (q : ℚ × ℚ) (pts : List Pt) (D : ℚ)
    (hn : MIN_NEIGHBORS ≤ pts.length) :
    MIN_NEIGHBORS ≤ (used_neighbors q pts D).length ↔
      MIN_NEIGHBORS ≤ pts.countP (fun p => decide (dist2 q p < D ^ 2)) := by
  rw [used_neighbors_length]
  unfold MIN_NEIGHBORS MAX_NEIGHBORS at *
  omega

/-! ### Scatter lemmas for the boolean-mask assignment
    `data_layer[missing_mask] = interpolated_values` -/

/-- Folded `set`s at other positions leave a cell untouched. -/
theorem foldl_set_getD_of_not_mem (ps : List (ℕ × ℚ)) :
    ∀ (l : List ℚ) (k : ℕ), (∀ x ∈ ps, x.1 ≠ k) →
      (ps.foldl (fun acc x => acc.set x.1 x.2) l).getD k 0 = l.getD k 0 := by
  induction ps with
  | nil => intro l k _; rfl
  | cons a ps ih =>
    intro l k hk
    rw [List.foldl_cons, ih _ k (fun x hx => hk x (List.mem_cons_of_mem _ hx))]
    rw [List.getD_eq_getElem?_getD, List.getD_eq_getElem?_getD,
      List.getElem?_set_ne (hk a (List.mem_cons_self a ps))]

/-- Folded `set`s with distinct positions write each pair's value at its
position. -/
theorem foldl_set_getD (ps : List (ℕ × ℚ)) :
    ∀ (l : List ℚ) (k : ℕ) (v : ℚ), (k, v) ∈ ps →
      (ps.map Prod.fst).Nodup → k < l.length →
      (ps.foldl (fun acc x => acc.set x.1 x.2) l).getD k 0 = v := by
  induction ps with
  | nil => intro l k v hmem _ _; cases hmem
  | cons a ps ih =>
    intro l k v hmem hnd hk
    rw [List.map_cons, List.nodup_cons] at hnd
    rw [List.foldl_cons]
    rcases List.mem_cons.mp hmem with heq | hmem'
    · have hk1 : a.1 = k := by rw [← heq]
      have hnot : ∀ x ∈ ps, x.1 ≠ k := by
        intro x hx hxk
        exact hnd.1 (hk1 ▸ hxk ▸ List.mem_map_of_mem Prod.fst hx)
      rw [foldl_set_getD_of_not_mem ps _ k hnot, hk1]
      rw [List.getD_eq_getElem?_getD, List.getElem?_set_self hk]
      have hv : a.2 = v := by rw [← heq]
      simp [hv]
    · exact ih _ k v hmem' hnd.2 (by simpa using hk)

/-- Zipping a list with its own image lists each element with its image. -/
theorem zip_self_map {α β : Type} (l : List α) (f : α → β) :
    l.zip (l.map f) = l.map (fun x => (x, f x)) := by
  induction l with
  | nil => rfl
  | cons a l ih => simp [ih]

/-! ### Theorems for claim C3 -/

/-- Claim C3 (amended): in a layer with at least one missing cell and at
least `MIN_NEIGHBORS` valid samples (and a missing-cell count that line
185's NumPy broadcast accepts), every missing cell is written with exactly
the per-query IDW value: the inverse-distance-weighted average when at
least `MIN_NEIGHBORS` of the up-to-`MAX_NEIGHBORS` nearest valid samples
lie strictly within `MAX_DISTANCE` — equivalently, when at least
`MIN_NEIGHBORS` valid samples lie strictly within `MAX_DISTANCE` at all —
and otherwise the sentinel `-9999.9`: the layer's global valid mean is
never used as a fill value. -/
theorem c3_fill_is_idw_or_sentinel (nCols : ℕ) (lon lat layer : List ℚ)
    (h1 : 0 < (missing_indices lon lat layer).length)
    (h2 : MIN_NEIGHBORS ≤ (valid_points lon lat layer).length)
    (h3 : (missing_indices lon lat layer).length = 1 ∨
      (missing_indices lon lat layer).length = nCols) :
    ∃ L G, gap_fill_layer nCols lon lat layer = .ok (L, G) ∧
      ∀ i ∈ missing_indices lon lat layer,
        L.getD i 0 = idw_value (valid_points lon lat layer)
            (lon.getD i 0, lat.getD i 0) MAX_DISTANCE ∧
        (MIN_NEIGHBORS ≤ (used_neighbors (lon.getD i 0, lat.getD i 0)
              (valid_points lon lat layer) MAX_DISTANCE).length ↔
          MIN_NEIGHBORS ≤ (valid_points lon lat layer).countP
            (fun p => decide (dist2 (lon.getD i 0, lat.getD i 0) p <
              MAX_DISTANCE ^ 2))) ∧
        ((valid_points lon lat layer).countP
            (fun p => decide (dist2 (lon.getD i 0, lat.getD i 0) p <
              MAX_DISTANCE ^ 2)) < MIN_NEIGHBORS →
          L.getD i 0 = CUSTOM_MISSING) := by
  have hvals : ∀ i ∈ missing_indices lon lat layer,
      (((missing_indices lon lat layer).zip
          (interpolated_values lon lat layer)).foldl
          (fun acc x => acc.set x.1 x.2) layer).getD i 0 =
        idw_value (valid_points lon lat layer)
          (lon.getD i 0, lat.getD i 0) MAX_DISTANCE := by
    intro i hi
    apply foldl_set_getD
    · rw [interpolated_values, zip_self_map]
      exact List.mem_map_of_mem _ hi
    · rw [interpolated_values, zip_self_map, List.map_map]
      have : (Prod.fst ∘ fun x : ℕ =>
          (x, idw_value (valid_points lon lat layer)
            (lon.getD x 0, lat.getD x 0) MAX_DISTANCE)) = id := rfl
      rw [this, List.map_id]
      exact (List.nodup_range layer.length).filter _
    · have := List.mem_filter.mp hi
      exact List.mem_range.mp this.1
  have hkey : ∀ L : List ℚ, (∀ i ∈ missing_indices lon lat layer,
      L.getD i 0 = idw_value (valid_points lon lat layer)
        (lon.getD i 0, lat.getD i 0) MAX_DISTANCE) →
      ∀ i ∈ missing_indices lon lat layer,
        L.getD i 0 = idw_value (valid_points lon lat layer)
            (lon.getD i 0, lat.getD i 0) MAX_DISTANCE ∧
        (MIN_NEIGHBORS ≤ (used_neighbors (lon.getD i 0, lat.getD i 0)
              (valid_points lon lat layer) MAX_DISTANCE).length ↔
          MIN_NEIGHBORS ≤ (valid_points lon lat layer).countP
            (fun p => decide (dist2 (lon.getD i 0, lat.getD i 0) p <
              MAX_DISTANCE ^ 2))) ∧
        ((valid_points lon lat layer).countP
            (fun p => decide (dist2 (lon.getD i 0, lat.getD i 0) p <
              MAX_DISTANCE ^ 2)) < MIN_NEIGHBORS →
          L.getD i 0 = CUSTOM_MISSING) := by
    intro L hL i hi
    have hiff := used_neighbors_card_iff (lon.getD i 0, lat.getD i 0)
      (valid_points lon lat layer) MAX_DISTANCE h2
    refine ⟨hL i hi, hiff, ?_⟩
    intro hm
    rw [hL i hi, idw_value]
    rw [if_neg]
    intro hle
    exact Nat.not_le.mpr hm (hiff.mp hle)
  have hok : ∃ G, gap_fill_layer nCols lon lat layer =
      .ok ((((missing_indices lon lat layer).zip
          (interpolated_values lon lat layer)).foldl
          (fun acc x => acc.set x.1 x.2) layer), G) := by
    rcases h3 with h3 | h3
    · exact ⟨_, by
        unfold gap_fill_layer
        rw [if_pos h1, if_pos h2,
          if_pos (by rw [interpolated_values, List.length_map]; exact h3)]⟩
    · by_cases hone : (interpolated_values lon lat layer).length = 1
      · exact ⟨_, by
          unfold gap_fill_layer
          rw [if_pos h1, if_pos h2, if_pos hone]⟩
      · exact ⟨_, by
          unfold gap_fill_layer
          rw [if_pos h1, if_pos h2, if_neg hone,
            if_pos (by rw [interpolated_values, List.length_map]; exact h3)]⟩
  rcases hok with ⟨G, hG⟩
  exact ⟨_, G, hG, hkey _ hvals⟩

/-- Witness for C3 (amended) at a concrete input: a 1 × 4 layer
`[-9999.9, 1, 2, 3]` whose three valid samples sit 10 or more degrees away
from the missing cell satisfies all three hypotheses. -/
theorem c3_fill_is_idw_or_sentinel_witness :
    0 < (missing_indices [0, 10, 11, 12] [0, 0, 0, 0]
        [CUSTOM_MISSING, 1, 2, 3]).length ∧
      MIN_NEIGHBORS ≤ (valid_points [0, 10, 11, 12] [0, 0, 0, 0]
        [CUSTOM_MISSING, 1, 2, 3]).length ∧
      ∃ L G, gap_fill_layer 4 [0, 10, 11, 12] [0, 0, 0, 0]
          [CUSTOM_MISSING, 1, 2, 3] = .ok (L, G) ∧
        ∀ i ∈ missing_indices [0, 10, 11, 12] [0, 0, 0, 0]
            [CUSTOM_MISSING, 1, 2, 3],
          L.getD i 0 = idw_value (valid_points [0, 10, 11, 12] [0, 0, 0, 0]
              [CUSTOM_MISSING, 1, 2, 3])
              ([0, 10, 11, 12].getD i 0, [0, 0, 0, 0].getD i 0)
              MAX_DISTANCE ∧
          (MIN_NEIGHBORS ≤ (used_neighbors
                ([0, 10, 11, 12].getD i 0, [0, 0, 0, 0].getD i 0)
                (valid_points [0, 10, 11, 12] [0, 0, 0, 0]
                  [CUSTOM_MISSING, 1, 2, 3]) MAX_DISTANCE).length ↔
            MIN_NEIGHBORS ≤ (valid_points [0, 10, 11, 12] [0, 0, 0, 0]
                [CUSTOM_MISSING, 1, 2, 3]).countP
              (fun p => decide (dist2
                ([0, 10, 11, 12].getD i 0, [0, 0, 0, 0].getD i 0) p <
                MAX_DISTANCE ^ 2))) ∧
          ((valid_points [0, 10, 11, 12] [0, 0, 0, 0]
                [CUSTOM_MISSING, 1, 2, 3]).countP
              (fun p => decide (dist2
                ([0, 10, 11, 12].getD i 0, [0, 0, 0, 0].getD i 0) p <
                MAX_DISTANCE ^ 2)) < MIN_NEIGHBORS →
            L.getD i 0 = CUSTOM_MISSING) :=
  ⟨by norm_num [missing_indices, missing_at, coord_valid_at, CUSTOM_MISSING,
      List.range_succ],
    by norm_num [valid_points, valid_indices, missing_at, coord_valid_at,
      CUSTOM_MISSING, MIN_NEIGHBORS, List.range_succ],
    c3_fill_is_idw_or_sentinel 4 [0, 10, 11, 12] [0, 0, 0, 0]
      [CUSTOM_MISSING, 1, 2, 3]
      (by norm_num [missing_indices, missing_at, coord_valid_at,
        CUSTOM_MISSING, List.range_succ])
      (by norm_num [valid_points, valid_indices, missing_at, coord_valid_at,
        CUSTOM_MISSING, MIN_NEIGHBORS, List.range_succ])
      (Or.inl (by norm_num [missing_indices, missing_at, coord_valid_at,
        CUSTOM_MISSING, List.range_succ]))⟩

/-- Counterexample for C3 as stated: in the 1 × 4 layer `[-9999.9, 1, 2, 3]`
(all coordinates valid), the missing cell at longitude 0 has its three
valid samples at longitudes 10, 11, 12 — all far beyond
`MAX_DISTANCE = 0.5` — so no neighbor passes the distance test.  The claim
says the cell is then filled with the layer's global valid mean
`(1 + 2 + 3) / 3 = 2`; the code writes the sentinel `-9999.9 ≠ 2` instead
(and drops the cell from the global-valid mask, visible as `false` at
position 0): main_new.py never falls back to a mean fill. -/
theorem c3_counterexample :
    gap_fill_layer 4 [0, 10, 11, 12] [0, 0, 0, 0] [CUSTOM_MISSING, 1, 2, 3] =
        .ok ([CUSTOM_MISSING, 1, 2, 3], [false, true, true, true]) ∧
      CUSTOM_MISSING ≠ ((1 : ℚ) + 2 + 3) / 3 := by
  constructor
  · norm_num [gap_fill_layer, missing_indices, missing_at, coord_valid_at,
      valid_points, valid_indices, interpolated_values, idw_value,
      used_neighbors, k_nearest, ranked, List.enum, List.enumFrom, dist2,
      dist_le, CUSTOM_MISSING, MIN_NEIGHBORS, MAX_NEIGHBORS, MAX_DISTANCE,
      List.range_succ]
  · norm_num [CUSTOM_MISSING]

/-! ### Permutation invariance of the block assembly (claim C7) -/

/-- A left fold over pairwise-commuting writes is invariant under
reordering of the write list. -/
theorem foldl_perm_of_comm {α β : Type} (f : β → α → β) :
    ∀ {l1 l2 : List α}, l1.Perm l2 →
      (∀ x ∈ l1, ∀ y ∈ l1, ∀ b, f (f b x) y = f (f b y) x) →
      ∀ b, l1.foldl f b = l2.foldl f b := by
  intro l1 l2 h
  induction h with
  | nil => intro _ _; rfl
  | cons x h ih =>
      intro H b
      simp only [List.foldl_cons]
      exact ih
        (fun a ha c hc => H a (List.mem_cons_of_mem _ ha)
          c (List.mem_cons_of_mem _ hc)) (f b x)
  | swap x y l =>
      intro H b
      simp only [List.foldl_cons]
      rw [H y (List.mem_cons_self _ _)
        x (List.mem_cons_of_mem _ (List.mem_cons_self _ _)) b]
  | trans h1 h2 ih1 ih2 =>
      intro H b
      rw [ih1 H b, ih2 (fun a ha c hc =>
        H a (h1.mem_iff.mpr ha) c (h1.mem_iff.mpr hc)) b]

/-- Membership in the block list, in terms of the tile start offsets. -/
theorem mem_blocks_iff (R C : ℕ) (b : Blk) :
    b ∈ blocks R C ↔
      ∃ t1 t2 : ℕ, t1 * BLOCK_SIZE ∈ block_starts R ∧
        t2 * BLOCK_SIZE ∈ block_starts C ∧
        b = ⟨t1 * BLOCK_SIZE, min (t1 * BLOCK_SIZE + BLOCK_SIZE) R,
          t2 * BLOCK_SIZE, min (t2 * BLOCK_SIZE + BLOCK_SIZE) C⟩ := by
  unfold blocks block_starts
  simp only [List.mem_flatMap, List.mem_map, List.mem_range]
  constructor
  · rintro ⟨i, ⟨t1, ht1, rfl⟩, j, ⟨t2, ht2, rfl⟩, rfl⟩
    exact ⟨t1, t2, ⟨t1, ht1, rfl⟩, ⟨t2, ht2, rfl⟩, rfl⟩
  · rintro ⟨t1, t2, ⟨s1, hs1, he1⟩, ⟨s2, hs2, he2⟩, rfl⟩
    exact ⟨t1 * BLOCK_SIZE, ⟨s1, hs1, he1⟩, t2 * BLOCK_SIZE,
      ⟨s2, hs2, he2⟩, rfl⟩

/-- Two distinct blocks of the tiling write disjoint index regions. -/
theorem blocks_disjoint (R C : ℕ) (b1 b2 : Blk)
    (h1 : b1 ∈ blocks R C) (h2 : b2 ∈ blocks R C) (hne : b1 ≠ b2)
    (rc : ℕ × ℕ) : ¬(covers b1 rc = true ∧ covers b2 rc = true) := by
  rcases (mem_blocks_iff R C b1).mp h1 with ⟨t1, t2, -, -, rfl⟩
  rcases (mem_blocks_iff R C b2).mp h2 with ⟨s1, s2, -, -, rfl⟩
  rintro ⟨hc1, hc2⟩
  unfold covers at hc1 hc2
  simp only [Bool.and_eq_true, decide_eq_true_eq] at hc1 hc2
  apply hne
  unfold BLOCK_SIZE at hc1 hc2 ⊢
  have ht : t1 = s1 ∧ t2 = s2 := by omega
  rw [ht.1, ht.2]

/-- Writes of two distinct tiling blocks commute. -/
theorem write_block_comm (pts : List Pt) (grid_lon grid_lat : List ℚ)
    (D : ℚ) (b1 b2 : Blk)
    (hdisj : ∀ rc, ¬(covers b1 rc = true ∧ covers b2 rc = true))
    (f : ℕ × ℕ → ℚ) :
    write_block pts grid_lon grid_lat D
        (write_block pts grid_lon grid_lat D f b1) b2 =
      write_block pts grid_lon grid_lat D
        (write_block pts grid_lon grid_lat D f b2) b1 := by
  funext rc
  unfold write_block
  by_cases hc1 : covers b1 rc <;> by_cases hc2 : covers b2 rc
  · exact absurd ⟨hc1, hc2⟩ (hdisj rc)
  · simp [hc1, hc2]
  · simp [hc1, hc2]
  · simp [hc1, hc2]

/-! ### Theorems for claim C7 -/

/-- Claim C7: assembling the blocks in any order — any permutation of the
block list, as a parallel pool completing in arbitrary order would produce
— yields exactly the array built by the strictly sequential loop: each
block's result is a pure function of its bounds and the shared inputs,
distinct blocks write disjoint index regions, and so the assembled output
does not depend on completion order. -/
theorem c7_parallel_assembly_order_independent (pts : List Pt)
    (grid_lon grid_lat : List ℚ) (D : ℚ) (bs : List Blk)
    (hperm : bs.Perm (blocks grid_lat.length grid_lon.length)) :
    bs.foldl (write_block pts grid_lon grid_lat D)
        (fun _ => CUSTOM_MISSING) =
      batch_idw pts grid_lon grid_lat D := by
  unfold batch_idw
  apply foldl_perm_of_comm (write_block pts grid_lon grid_lat D) hperm
  intro x hx y hy b
  by_cases hxy : x = y
  · rw [hxy]
  · exact write_block_comm pts grid_lon grid_lat D x y
      (blocks_disjoint grid_lat.length grid_lon.length x y
        (hperm.mem_iff.mp hx) (hperm.mem_iff.mp hy) hxy) b

/-- Witness for C7 at a concrete input: a 129 × 1 grid splits into two
blocks; assembling them in reversed order gives the same output as the
sequential loop. -/
theorem c7_parallel_assembly_order_independent_witness :
    (([⟨128, 129, 0, 1⟩, ⟨0, 128, 0, 1⟩] : List Blk).Perm
        (blocks (List.replicate 129 (0 : ℚ)).length [(0 : ℚ)].length)) ∧
      ([⟨128, 129, 0, 1⟩, ⟨0, 128, 0, 1⟩] : List Blk).foldl
          (write_block [] [0] (List.replicate 129 0) MAX_DISTANCE)
          (fun _ => CUSTOM_MISSING) =
        batch_idw [] [0] (List.replicate 129 0) MAX_DISTANCE := by
  have hp : ([⟨128, 129, 0, 1⟩, ⟨0, 128, 0, 1⟩] : List Blk).Perm
      (blocks (List.replicate 129 (0 : ℚ)).length [(0 : ℚ)].length) := by
    rw [List.length_replicate]
    decide
  exact ⟨hp, c7_parallel_assembly_order_independent [] [0]
    (List.replicate 129 0) MAX_DISTANCE _ hp⟩

/-! ### Locating a cell inside its block (claims C8 and C10) -/

/-- A fold of block writes none of which covers `rc` leaves `rc` at the
base value. -/
theorem foldl_write_not_covered (pts : List Pt) (grid_lon grid_lat : List ℚ)
    (D : ℚ) (rc : ℕ × ℕ) :
    ∀ (bs : List Blk) (f0 : ℕ × ℕ → ℚ),
      (∀ b ∈ bs, covers b rc = false) →
      bs.foldl (write_block pts grid_lon grid_lat D) f0 rc = f0 rc := by
  intro bs
  induction bs with
  | nil => intro f0 _; rfl
  | cons a bs ih =>
    intro f0 h
    rw [List.foldl_cons,
      ih _ (fun b hb => h b (List.mem_cons_of_mem _ hb))]
    unfold write_block
    rw [h a (List.mem_cons_self _ _)]
    simp

/-- A fold of block writes in which every block covering `rc` equals `b0`
(present in the list) ends with `b0`'s value at `rc`. -/
theorem foldl_write_unique_cover (pts : List Pt) (grid_lon grid_lat : List ℚ)
    (D : ℚ) (rc : ℕ × ℕ) (b0 : Blk) (hcov : covers b0 rc = true) :
    ∀ (bs : List Blk) (f0 : ℕ × ℕ → ℚ), b0 ∈ bs →
      (∀ b2 ∈ bs, covers b2 rc = true → b2 = b0) →
      bs.foldl (write_block pts grid_lon grid_lat D) f0 rc =
        process_block pts grid_lon grid_lat D b0
          (rc.1 - b0.iS) (rc.2 - b0.jS) := by
  intro bs
  induction bs with
  | nil => intro f0 hmem _; cases hmem
  | cons a bs ih =>
    intro f0 hmem hall
    rw [List.foldl_cons]
    by_cases hbs : ∃ b2 ∈ bs, covers b2 rc = true
    · rcases hbs with ⟨b2, hb2, hb2c⟩
      have hb2b0 : b2 = b0 := hall b2 (List.mem_cons_of_mem _ hb2) hb2c
      exact ih _ (hb2b0 ▸ hb2)
        (fun c hc hcc => hall c (List.mem_cons_of_mem _ hc) hcc)
    · push_neg at hbs
      have hnone : ∀ b2 ∈ bs, covers b2 rc = false := by
        intro b2 hb2
        cases hcb : covers b2 rc
        · rfl
        · exact absurd hcb (hbs b2 hb2)
      rw [foldl_write_not_covered pts grid_lon grid_lat D rc bs _ hnone]
      have ha : a = b0 := by
        rcases List.mem_cons.mp hmem with h | h
        · exact h.symm
        · rw [hnone b0 h] at hcov
          cases hcov
      rw [ha]
      unfold write_block
      rw [hcov]
      simp

/-- The value `batch_idw` leaves at an in-range cell is the value its
tile's `process_block` computed for it. -/
theorem batch_idw_cell (pts : List Pt) (grid_lon grid_lat : List ℚ) (D : ℚ)
    (rc : ℕ × ℕ) (hr : rc.1 < grid_lat.length) (hc : rc.2 < grid_lon.length) :
    batch_idw pts grid_lon grid_lat D rc =
      process_block pts grid_lon grid_lat D
        (block_of grid_lat.length grid_lon.length rc)
        (rc.1 - (block_of grid_lat.length grid_lon.length rc).iS)
        (rc.2 - (block_of grid_lat.length grid_lon.length rc).jS) := by
  unfold batch_idw
  apply foldl_write_unique_cover
  · unfold covers block_of BLOCK_SIZE
    simp only [Bool.and_eq_true, decide_eq_true_eq]
    omega
  · rw [mem_blocks_iff]
    refine ⟨rc.1 / BLOCK_SIZE, rc.2 / BLOCK_SIZE, ?_, ?_, ?_⟩
    · unfold block_starts
      apply List.mem_map_of_mem
      rw [List.mem_range]
      unfold BLOCK_SIZE at *
      omega
    · unfold block_starts
      apply List.mem_map_of_mem
      rw [List.mem_range]
      unfold BLOCK_SIZE at *
      omega
    · unfold block_of
      rw [Nat.mul_comm]
      rw [Nat.mul_comm (rc.2 / BLOCK_SIZE) BLOCK_SIZE]
  · intro b2 hb2 hcov2
    rcases (mem_blocks_iff _ _ b2).mp hb2 with ⟨t1, t2, -, -, rfl⟩
    unfold covers at hcov2
    simp only [Bool.and_eq_true, decide_eq_true_eq] at hcov2
    unfold block_of
    unfold BLOCK_SIZE at *
    have ht : t1 = rc.1 / 128 ∧ t2 = rc.2 / 128 := by omega
    rw [ht.1, ht.2]
    rw [Nat.mul_comm]
    rw [Nat.mul_comm (rc.2 / 128) 128]

/-- Reading the block slice at the cell's local offset gives the global
grid value, and that value is an element of the slice. -/
theorem slice_getD (l : List ℚ) (s i B0 : ℕ) (hs : s ≤ i)
    (hi : i < min (s + B0) l.length) :
    ((l.drop s).take (min (s + B0) l.length - s)).getD (i - s) 0 =
        l.getD i 0 ∧
      l.getD i 0 ∈ (l.drop s).take (min (s + B0) l.length - s) := by
  have hlen : ((l.drop s).take (min (s + B0) l.length - s)).length =
      min (s + B0) l.length - s := by
    rw [List.length_take, List.length_drop]
    omega
  have hbound : i - s < ((l.drop s).take (min (s + B0) l.length - s)).length := by
    omega
  have hil : i < l.length := by omega
  have hgl : ((l.drop s).take (min (s + B0) l.length - s)).get ⟨i - s, hbound⟩ =
      l.get ⟨i, hil⟩ := by
    rw [List.get_eq_getElem, List.get_eq_getElem]
    dsimp only
    rw [List.getElem_take, List.getElem_drop]
    congr 1
    omega
  have h1 : ((l.drop s).take (min (s + B0) l.length - s)).getD (i - s) 0 =
      ((l.drop s).take (min (s + B0) l.length - s)).get ⟨i - s, hbound⟩ := by
    rw [List.getD_eq_getElem?_getD, List.getElem?_eq_getElem hbound,
      Option.getD_some, List.get_eq_getElem]
  have h2 : l.getD i 0 = l.get ⟨i, hil⟩ := by
    rw [List.getD_eq_getElem?_getD, List.getElem?_eq_getElem hil,
      Option.getD_some, List.get_eq_getElem]
  constructor
  · rw [h1, h2, hgl]
  · rw [h2, ← hgl, List.get_eq_getElem]
    exact List.getElem_mem hbound

/-- `foldl min` is a lower bound for its seed and every element. -/
theorem foldl_min_le (l : List ℚ) :
    ∀ a : ℚ, l.foldl min a ≤ a ∧ ∀ x ∈ l, l.foldl min a ≤ x := by
  induction l with
  | nil => intro a; exact ⟨le_refl a, by intro x hx; cases hx⟩
  | cons y l ih =>
    intro a
    rw [List.foldl_cons]
    refine ⟨(ih (min a y)).1.trans (min_le_left a y), ?_⟩
    intro x hx
    rcases List.mem_cons.mp hx with rfl | hx
    · exact (ih (min a x)).1.trans (min_le_right a x)
    · exact (ih (min a y)).2 x hx

/-- `foldl max` is an upper bound for its seed and every element. -/
theorem le_foldl_max (l : List ℚ) :
    ∀ a : ℚ, a ≤ l.foldl max a ∧ ∀ x ∈ l, x ≤ l.foldl max a := by
  induction l with
  | nil => intro a; exact ⟨le_refl a, by intro x hx; cases hx⟩
  | cons y l ih =>
    intro a
    rw [List.foldl_cons]
    refine ⟨(le_max_left a y).trans (ih (max a y)).1, ?_⟩
    intro x hx
    rcases List.mem_cons.mp hx with rfl | hx
    · exact (le_max_right a x).trans (ih (max a x)).1
    · exact (ih (max a y)).2 x hx

/-- Every element of a list is bounded by `list_min` and `list_max`. -/
theorem list_min_le_list_max (l : List ℚ) (x : ℚ) (hx : x ∈ l) :
    list_min l ≤ x ∧ x ≤ list_max l := by
  match l with
  | [] => cases hx
  | y :: ys =>
    unfold list_min list_max
    rcases List.mem_cons.mp hx with rfl | hx
    · exact ⟨(foldl_min_le ys x).1, (le_foldl_max ys x).1⟩
    · exact ⟨(foldl_min_le ys y).2 x hx, (le_foldl_max ys y).2 x hx⟩

/-- A source point strictly within distance `D` of a query point lying
inside the block lies inside the block's bounding box expanded by `D`. -/
theorem disk_subset_box (lonB latB : List ℚ) (D : ℚ) (hD : 0 < D)
    (q : ℚ × ℚ) (hqlon : q.1 ∈ lonB) (hqlat : q.2 ∈ latB) (p : Pt)
    (hp : dist2 q p < D ^ 2) : in_range_box lonB latB D p = true := by
  unfold dist2 at hp
  have hlon2 : (p.1 - q.1) ^ 2 < D ^ 2 := by nlinarith [sq_nonneg (p.2.1 - q.2)]
  have hlat2 : (p.2.1 - q.2) ^ 2 < D ^ 2 := by nlinarith [sq_nonneg (p.1 - q.1)]
  have hlon : q.1 - D < p.1 ∧ p.1 < q.1 + D := by
    constructor <;> nlinarith
  have hlat : q.2 - D < p.2.1 ∧ p.2.1 < q.2 + D := by
    constructor <;> nlinarith
  have hqlonb := list_min_le_list_max lonB q.1 hqlon
  have hqlatb := list_min_le_list_max latB q.2 hqlat
  unfold in_range_box
  simp only [Bool.and_eq_true, decide_eq_true_eq]
  refine ⟨⟨⟨?_, ?_⟩, ?_⟩, ?_⟩ <;> linarith [hqlonb.1, hqlonb.2, hqlatb.1, hqlatb.2]

/-- Counting the points strictly within `D` of an in-block query point is
the same over the block's candidate set as over all source points. -/
theorem box_filter_countP (pts : List Pt) (lonB latB : List ℚ) (D : ℚ)
    (hD : 0 < D) (q : ℚ × ℚ) (hqlon : q.1 ∈ lonB) (hqlat : q.2 ∈ latB) :
    (pts.filter (in_range_box lonB latB D)).countP
        (fun p => decide (dist2 q p < D ^ 2)) =
      pts.countP (fun p => decide (dist2 q p < D ^ 2)) := by
  rw [List.countP_filter]
  apply List.countP_congr
  intro p hp
  constructor
  · intro h
    rw [Bool.and_eq_true] at h
    exact h.1
  · intro h
    rw [Bool.and_eq_true]
    refine ⟨h, ?_⟩
    rw [decide_eq_true_iff] at h
    exact disk_subset_box lonB latB D hD q hqlon hqlat p h

/-- Cells of the output grid are exactly the in-range index pairs. -/
theorem mem_grid_cells (nLat nLon : ℕ) (rc : ℕ × ℕ) :
    rc ∈ grid_cells nLat nLon ↔ rc.1 < nLat ∧ rc.2 < nLon := by
  unfold grid_cells
  rcases rc with ⟨r, c⟩
  simp only [List.mem_flatMap, List.mem_map, List.mem_range]
  constructor
  · rintro ⟨a, ha, b, hb, heq⟩
    cases heq
    exact ⟨ha, hb⟩
  · rintro ⟨hr, hc⟩
    exact ⟨r, hr, c, hc, rfl⟩

/-- The coordinate-free characterization of `cell_assigned`: the code path
assigns an interpolated value to an in-range cell exactly when at least
`MIN_NEIGHBORS` source points lie strictly within `D` of the cell's grid
point. -/
theorem cell_assigned_iff (pts : List Pt) (grid_lon grid_lat : List ℚ)
    (D : ℚ) (rc : ℕ × ℕ) (hr : rc.1 < grid_lat.length)
    (hc : rc.2 < grid_lon.length) (hD : 0 < D) :
    cell_assigned pts grid_lon grid_lat D rc = true ↔
      MIN_NEIGHBORS ≤ pts.countP
        (fun p => decide (dist2 (grid_lon.getD rc.2 0, grid_lat.getD rc.1 0)
          p < D ^ 2)) := by
  have hlon := slice_getD grid_lon (BLOCK_SIZE * (rc.2 / BLOCK_SIZE)) rc.2
    BLOCK_SIZE (by unfold BLOCK_SIZE; omega) (by unfold BLOCK_SIZE; omega)
  have hlat := slice_getD grid_lat (BLOCK_SIZE * (rc.1 / BLOCK_SIZE)) rc.1
    BLOCK_SIZE (by unfold BLOCK_SIZE; omega) (by unfold BLOCK_SIZE; omega)
  unfold cell_assigned block_of
  simp only [Bool.and_eq_true, decide_eq_true_eq]
  rw [hlon.1, hlat.1]
  rw [used_neighbors_length]
  rw [box_filter_countP pts _ _ D hD _ hlon.2 hlat.2]
  have hlenR : (pts.filter (in_range_box
      ((grid_lon.drop (BLOCK_SIZE * (rc.2 / BLOCK_SIZE))).take
        (min (BLOCK_SIZE * (rc.2 / BLOCK_SIZE) + BLOCK_SIZE) grid_lon.length -
          BLOCK_SIZE * (rc.2 / BLOCK_SIZE)))
      ((grid_lat.drop (BLOCK_SIZE * (rc.1 / BLOCK_SIZE))).take
        (min (BLOCK_SIZE * (rc.1 / BLOCK_SIZE) + BLOCK_SIZE) grid_lat.length -
          BLOCK_SIZE * (rc.1 / BLOCK_SIZE))) D)).length =
      pts.countP (in_range_box
      ((grid_lon.drop (BLOCK_SIZE * (rc.2 / BLOCK_SIZE))).take
        (min (BLOCK_SIZE * (rc.2 / BLOCK_SIZE) + BLOCK_SIZE) grid_lon.length -
          BLOCK_SIZE * (rc.2 / BLOCK_SIZE)))
      ((grid_lat.drop (BLOCK_SIZE * (rc.1 / BLOCK_SIZE))).take
        (min (BLOCK_SIZE * (rc.1 / BLOCK_SIZE) + BLOCK_SIZE) grid_lat.length -
          BLOCK_SIZE * (rc.1 / BLOCK_SIZE))) D) :=
    (List.countP_eq_length_filter _ _).symm
  have hm_le : pts.countP (fun p => decide
      (dist2 (grid_lon.getD rc.2 0, grid_lat.getD rc.1 0) p < D ^ 2)) ≤
      pts.countP (in_range_box
      ((grid_lon.drop (BLOCK_SIZE * (rc.2 / BLOCK_SIZE))).take
        (min (BLOCK_SIZE * (rc.2 / BLOCK_SIZE) + BLOCK_SIZE) grid_lon.length -
          BLOCK_SIZE * (rc.2 / BLOCK_SIZE)))
      ((grid_lat.drop (BLOCK_SIZE * (rc.1 / BLOCK_SIZE))).take
        (min (BLOCK_SIZE * (rc.1 / BLOCK_SIZE) + BLOCK_SIZE) grid_lat.length -
          BLOCK_SIZE * (rc.1 / BLOCK_SIZE))) D) := by
    apply List.countP_mono_left
    intro p hp h
    rw [decide_eq_true_iff] at h
    exact disk_subset_box _ _ D hD _ hlon.2 hlat.2 p h
  rw [hlenR] at *
  unfold MIN_NEIGHBORS MAX_NEIGHBORS at *
  omega

/-- A cell the code path does not assign holds the sentinel in the
assembled output. -/
theorem batch_idw_sentinel_of_not_assigned (pts : List Pt)
    (grid_lon grid_lat : List ℚ) (D : ℚ) (rc : ℕ × ℕ)
    (hr : rc.1 < grid_lat.length) (hc : rc.2 < grid_lon.length)
    (hna : cell_assigned pts grid_lon grid_lat D rc = false) :
    batch_idw pts grid_lon grid_lat D rc = CUSTOM_MISSING := by
  rw [batch_idw_cell pts grid_lon grid_lat D rc hr hc]
  unfold cell_assigned at hna
  rw [Bool.and_eq_false_iff] at hna
  unfold process_block idw_interp_single idw_value
  rcases hna with hna | hna
  · rw [decide_eq_false_iff_not, Nat.not_le] at hna
    rw [if_pos hna]
  · rw [decide_eq_false_iff_not, Nat.not_le] at hna
    by_cases hn : (pts.filter (in_range_box
        ((grid_lon.drop (block_of grid_lat.length grid_lon.length rc).jS).take
          ((block_of grid_lat.length grid_lon.length rc).jE -
            (block_of grid_lat.length grid_lon.length rc).jS))
        ((grid_lat.drop (block_of grid_lat.length grid_lon.length rc).iS).take
          ((block_of grid_lat.length grid_lon.length rc).iE -
            (block_of grid_lat.length grid_lon.length rc).iS)) D)).length <
        MIN_NEIGHBORS
    · rw [if_pos hn]
    · rw [if_neg hn, if_neg hn, if_neg (Nat.not_le.mpr hna)]

/-! ### Theorems for claim C8 -/

/-- Claim C8 (amended): holding everything else fixed, enlarging
`MAX_DISTANCE` from `d1` to `d2 ≥ d1` can only grow the set of grid cells
to which the regridder assigns an interpolated value: every cell assigned
under `d1` is assigned under `d2`, so the count of assigned cells is
monotone; and a cell not assigned holds the sentinel in the output.  (The
count of non-sentinel cells itself is not monotone, because an assigned
cell's interpolated value can coincide exactly with the sentinel — see the
counterexample.) -/
theorem c8_assigned_cells_monotone (pts : List Pt)
    (grid_lon grid_lat : List ℚ) (d1 d2 : ℚ) (h1 : 0 < d1) (h12 : d1 ≤ d2) :
    (∀ rc ∈ grid_cells grid_lat.length grid_lon.length,
        cell_assigned pts grid_lon grid_lat d1 rc = true →
          cell_assigned pts grid_lon grid_lat d2 rc = true) ∧
      (grid_cells grid_lat.length grid_lon.length).countP
          (cell_assigned pts grid_lon grid_lat d1) ≤
        (grid_cells grid_lat.length grid_lon.length).countP
          (cell_assigned pts grid_lon grid_lat d2) ∧
      ∀ rc ∈ grid_cells grid_lat.length grid_lon.length,
        cell_assigned pts grid_lon grid_lat d1 rc = false →
          batch_idw pts grid_lon grid_lat d1 rc = CUSTOM_MISSING := by
  have h2pos : 0 < d2 := lt_of_lt_of_le h1 h12
  have hpt : ∀ rc ∈ grid_cells grid_lat.length grid_lon.length,
      cell_assigned pts grid_lon grid_lat d1 rc = true →
        cell_assigned pts grid_lon grid_lat d2 rc = true := by
    intro rc hrc ha
    have hm := (mem_grid_cells _ _ rc).mp hrc
    rw [cell_assigned_iff pts grid_lon grid_lat d1 rc hm.1 hm.2 h1] at ha
    rw [cell_assigned_iff pts grid_lon grid_lat d2 rc hm.1 hm.2 h2pos]
    refine le_trans ha (List.countP_mono_left ?_)
    intro p hp h
    rw [decide_eq_true_iff] at h ⊢
    have hsq : d1 ^ 2 ≤ d2 ^ 2 := by nlinarith
    linarith
  refine ⟨hpt, List.countP_mono_left hpt, ?_⟩
  intro rc hrc hna
  have hm := (mem_grid_cells _ _ rc).mp hrc
  exact batch_idw_sentinel_of_not_assigned pts grid_lon grid_lat d1 rc
    hm.1 hm.2 hna

/-- Witness for C8 (amended) at a concrete input: the trivial 1 × 1 grid
with no source points, for `d1 = 1/5 ≤ d2 = 1/2`. -/
theorem c8_assigned_cells_monotone_witness :
    (0 : ℚ) < 1/5 ∧ (1/5 : ℚ) ≤ 1/2 ∧
      ((∀ rc ∈ grid_cells ([(0 : ℚ)]).length ([(0 : ℚ)]).length,
          cell_assigned [] [0] [0] (1/5) rc = true →
            cell_assigned [] [0] [0] (1/2) rc = true) ∧
        (grid_cells ([(0 : ℚ)]).length ([(0 : ℚ)]).length).countP
            (cell_assigned [] [0] [0] (1/5)) ≤
          (grid_cells ([(0 : ℚ)]).length ([(0 : ℚ)]).length).countP
            (cell_assigned [] [0] [0] (1/2)) ∧
        ∀ rc ∈ grid_cells ([(0 : ℚ)]).length ([(0 : ℚ)]).length,
          cell_assigned [] [0] [0] (1/5) rc = false →
            batch_idw [] [0] [0] (1/5) rc = CUSTOM_MISSING) :=
  ⟨by norm_num, by norm_num,
    c8_assigned_cells_monotone [] [0] [0] (1/5) (1/2)
      (by norm_num) (by norm_num)⟩

/-- Counterexample for C8 as stated: on a 1 × 1 grid with query point
`(0, 0)` and source points `(±0.1, 0)`, `(0, 0.1)` (value 1 each) and
`(0, -0.3)` (value `-280024.2`), take `d1 = 0.2 ≤ d2 = 0.5`.  Under `d1`
only the three value-1 points are candidates and the cell gets value 1
(one non-sentinel cell).  Under `d2` the fourth point joins, and the
inverse-distance weights `(100, 100, 100, 100/9)` make the interpolated
value exactly `(300 + (100/9)(-1400121/5)) / (2800/9) = -9999.9` — the
sentinel — so `np.sum(result != CUSTOM_MISSING)` counts zero cells: the
non-sentinel coverage count DECREASES as `MAX_DISTANCE` grows. -/
theorem c8_counterexample :
    (1/5 : ℚ) ≤ 1/2 ∧
      valid_count
          [(1/10, 0, 1), (-1/10, 0, 1), (0, 1/10, 1), (0, -3/10, -1400121/5)]
          [0] [0] (1/5) = 1 ∧
      valid_count
          [(1/10, 0, 1), (-1/10, 0, 1), (0, 1/10, 1), (0, -3/10, -1400121/5)]
          [0] [0] (1/2) = 0 := by
  refine ⟨by norm_num, ?_, ?_⟩
  · norm_num [valid_count, grid_cells, batch_idw, blocks, block_starts,
      write_block, covers, process_block, in_range_box, list_min, list_max,
      idw_interp_single, idw_value, used_neighbors, k_nearest, ranked,
      List.enum, List.enumFrom, dist_le, dist2, MIN_NEIGHBORS, MAX_NEIGHBORS,
      BLOCK_SIZE, CUSTOM_MISSING, List.range_succ]
  · norm_num [valid_count, grid_cells, batch_idw, blocks, block_starts,
      write_block, covers, process_block, in_range_box, list_min, list_max,
      idw_interp_single, idw_value, used_neighbors, k_nearest, ranked,
      List.enum, List.enumFrom, dist_le, dist2, MIN_NEIGHBORS, MAX_NEIGHBORS,
      BLOCK_SIZE, CUSTOM_MISSING, List.range_succ]

/-! ### Convexity of the interpolated value (claim C10) -/

/-- The candidate source points of the block containing cell `rc` — the
`in_range` selection of `process_block` lines 250-251 for that tile. -/
def cell_candidates (pts : List Pt) (grid_lon grid_lat : List ℚ) (D : ℚ)
    (rc : ℕ × ℕ) : List Pt :=
  pts.filter (in_range_box
    ((grid_lon.drop (block_of grid_lat.length grid_lon.length rc).jS).take
      ((block_of grid_lat.length grid_lon.length rc).jE -
        (block_of grid_lat.length grid_lon.length rc).jS))
    ((grid_lat.drop (block_of grid_lat.length grid_lon.length rc).iS).take
      ((block_of grid_lat.length grid_lon.length rc).iE -
        (block_of grid_lat.length grid_lon.length rc).iS)) D)

/-- Sums of pointwise-nonnegative images are nonnegative. -/
theorem map_sum_nonneg {α : Type} (l : List α) (f : α → ℚ)
    (h : ∀ x ∈ l, 0 ≤ f x) : 0 ≤ (l.map f).sum := by
  induction l with
  | nil => simp
  | cons a l ih =>
    rw [List.map_cons, List.sum_cons]
    have := h a (List.mem_cons_self _ _)
    have := ih (fun x hx => h x (List.mem_cons_of_mem _ hx))
    linarith

/-- Sums of pointwise-positive images over a nonempty list are positive. -/
theorem map_sum_pos {α : Type} (l : List α) (f : α → ℚ) (hne : l ≠ [])
    (h : ∀ x ∈ l, 0 < f x) : 0 < (l.map f).sum := by
  match l with
  | [] => exact absurd rfl hne
  | a :: l =>
    rw [List.map_cons, List.sum_cons]
    have h1 := h a (List.mem_cons_self _ _)
    have h2 := map_sum_nonneg l f (fun x hx => (h x (List.mem_cons_of_mem _ hx)).le)
    linarith

/-- Pointwise strict inequalities add up strictly over a nonempty list. -/
theorem map_sum_lt {α : Type} (l : List α) (f g : α → ℚ) (hne : l ≠ [])
    (h : ∀ x ∈ l, f x < g x) : (l.map f).sum < (l.map g).sum := by
  match l with
  | [] => exact absurd rfl hne
  | a :: l =>
    rw [List.map_cons, List.map_cons, List.sum_cons, List.sum_cons]
    have h1 := h a (List.mem_cons_self _ _)
    have h2 : (l.map f).sum ≤ (l.map g).sum := by
      match l with
      | [] => simp
      | b :: l2 =>
        exact (map_sum_lt (b :: l2) f g (by simp)
          (fun x hx => h x (List.mem_cons_of_mem _ hx))).le
    linarith

/-- The normalized inverse-distance-weighted average of the neighbor values
lies between some neighbor's value and some (other) neighbor's value. -/
theorem weighted_avg_bounds (q : ℚ × ℚ) (nb : List (ℕ × Pt)) (hne : nb ≠ [])
    (hpos : ∀ a ∈ nb, 0 < dist2 q a.2) :
    (∃ lo ∈ nb, lo.2.2.2 ≤ (nb.map (fun a => a.2.2.2 / dist2 q a.2)).sum /
        (nb.map (fun a => 1 / dist2 q a.2)).sum) ∧
      (∃ hi ∈ nb, (nb.map (fun a => a.2.2.2 / dist2 q a.2)).sum /
        (nb.map (fun a => 1 / dist2 q a.2)).sum ≤ hi.2.2.2) := by
  have hW : 0 < (nb.map (fun a => 1 / dist2 q a.2)).sum :=
    map_sum_pos nb _ hne (fun a ha => one_div_pos.mpr (hpos a ha))
  set V := (nb.map (fun a => a.2.2.2 / dist2 q a.2)).sum with hV
  set W := (nb.map (fun a => 1 / dist2 q a.2)).sum with hWd
  constructor
  · by_contra hno
    push_neg at hno
    have hlt : (nb.map (fun a => (V / W) * (1 / dist2 q a.2))).sum <
        (nb.map (fun a => a.2.2.2 / dist2 q a.2)).sum := by
      apply map_sum_lt nb _ _ hne
      intro a ha
      have hd := hpos a ha
      have hv := hno a ha
      rw [div_eq_mul_one_div a.2.2.2 (dist2 q a.2)]
      exact mul_lt_mul_of_pos_right hv (by positivity)
    rw [List.sum_map_mul_left, ← hWd, ← hV] at hlt
    rw [div_mul_cancel₀ V (ne_of_gt hW)] at hlt
    exact lt_irrefl V hlt
  · by_contra hno
    push_neg at hno
    have hlt : (nb.map (fun a => a.2.2.2 / dist2 q a.2)).sum <
        (nb.map (fun a => (V / W) * (1 / dist2 q a.2))).sum := by
      apply map_sum_lt nb _ _ hne
      intro a ha
      have hd := hpos a ha
      have hv := hno a ha
      rw [div_eq_mul_one_div a.2.2.2 (dist2 q a.2)]
      exact mul_lt_mul_of_pos_right hv (by positivity)
    rw [List.sum_map_mul_left, ← hWd, ← hV] at hlt
    rw [div_mul_cancel₀ V (ne_of_gt hW)] at hlt
    exact lt_irrefl V hlt

/-- A used neighbor is one of the source points handed to the query. -/
theorem used_neighbors_mem (q : ℚ × ℚ) (pts : List Pt) (D : ℚ)
    (a : ℕ × Pt) (ha : a ∈ used_neighbors q pts D) : a.2 ∈ pts := by
  unfold used_neighbors k_nearest ranked at ha
  have h1 := List.mem_of_mem_filter ha
  have h2 := List.mem_of_mem_take h1
  have h3 := (List.perm_insertionSort (dist_le q) pts.enum).mem_iff.mp h2
  exact List.snd_mem_of_mem_enum h3

/-! ### Theorems for claim C10 -/

/-- Claim C10: provided no source point sits exactly on the cell's grid
point (there the code's weight `1/distance**2` divides by zero), every cell
of the regridded output either holds exactly the sentinel `-9999.9` or
holds a convex combination — positive inverse-distance weights normalized
to sum 1 — of its block's candidate source values, and so lies between two
of those values. -/
theorem c10_output_value_bounds (pts : List Pt)
    (grid_lon grid_lat : List ℚ) (D : ℚ) (rc : ℕ × ℕ)
    (hr : rc.1 < grid_lat.length) (hc : rc.2 < grid_lon.length)
    (hpos : ∀ p ∈ pts,
      0 < dist2 (grid_lon.getD rc.2 0, grid_lat.getD rc.1 0) p) :
    batch_idw pts grid_lon grid_lat D rc = CUSTOM_MISSING ∨
      ∃ plo ∈ cell_candidates pts grid_lon grid_lat D rc,
        ∃ phi ∈ cell_candidates pts grid_lon grid_lat D rc,
          plo.2.2 ≤ batch_idw pts grid_lon grid_lat D rc ∧
            batch_idw pts grid_lon grid_lat D rc ≤ phi.2.2 := by
  have hlon := slice_getD grid_lon (BLOCK_SIZE * (rc.2 / BLOCK_SIZE)) rc.2
    BLOCK_SIZE (by unfold BLOCK_SIZE; omega) (by unfold BLOCK_SIZE; omega)
  have hlat := slice_getD grid_lat (BLOCK_SIZE * (rc.1 / BLOCK_SIZE)) rc.1
    BLOCK_SIZE (by unfold BLOCK_SIZE; omega) (by unfold BLOCK_SIZE; omega)
  rw [batch_idw_cell pts grid_lon grid_lat D rc hr hc]
  unfold process_block idw_interp_single idw_value cell_candidates block_of
  dsimp only
  rw [hlon.1, hlat.1]
  by_cases hg1 : (pts.filter (in_range_box
      ((grid_lon.drop (BLOCK_SIZE * (rc.2 / BLOCK_SIZE))).take
        (min (BLOCK_SIZE * (rc.2 / BLOCK_SIZE) + BLOCK_SIZE) grid_lon.length -
          BLOCK_SIZE * (rc.2 / BLOCK_SIZE)))
      ((grid_lat.drop (BLOCK_SIZE * (rc.1 / BLOCK_SIZE))).take
        (min (BLOCK_SIZE * (rc.1 / BLOCK_SIZE) + BLOCK_SIZE) grid_lat.length -
          BLOCK_SIZE * (rc.1 / BLOCK_SIZE))) D)).length < MIN_NEIGHBORS
  · rw [if_pos hg1]
    exact Or.inl rfl
  · rw [if_neg hg1, if_neg hg1]
    by_cases hg2 : MIN_NEIGHBORS ≤ (used_neighbors
        (grid_lon.getD rc.2 0, grid_lat.getD rc.1 0)
        (pts.filter (in_range_box
          ((grid_lon.drop (BLOCK_SIZE * (rc.2 / BLOCK_SIZE))).take
            (min (BLOCK_SIZE * (rc.2 / BLOCK_SIZE) + BLOCK_SIZE)
              grid_lon.length - BLOCK_SIZE * (rc.2 / BLOCK_SIZE)))
          ((grid_lat.drop (BLOCK_SIZE * (rc.1 / BLOCK_SIZE))).take
            (min (BLOCK_SIZE * (rc.1 / BLOCK_SIZE) + BLOCK_SIZE)
              grid_lat.length - BLOCK_SIZE * (rc.1 / BLOCK_SIZE))) D))
        D).length
    · rw [if_pos hg2]
      have hne : used_neighbors
          (grid_lon.getD rc.2 0, grid_lat.getD rc.1 0)
          (pts.filter (in_range_box
            ((grid_lon.drop (BLOCK_SIZE * (rc.2 / BLOCK_SIZE))).take
              (min (BLOCK_SIZE * (rc.2 / BLOCK_SIZE) + BLOCK_SIZE)
                grid_lon.length - BLOCK_SIZE * (rc.2 / BLOCK_SIZE)))
            ((grid_lat.drop (BLOCK_SIZE * (rc.1 / BLOCK_SIZE))).take
              (min (BLOCK_SIZE * (rc.1 / BLOCK_SIZE) + BLOCK_SIZE)
                grid_lat.length - BLOCK_SIZE * (rc.1 / BLOCK_SIZE))) D))
          D ≠ [] := by
        intro hnil
        rw [hnil] at hg2
        simp [MIN_NEIGHBORS] at hg2
      have hposnb : ∀ a ∈ used_neighbors
          (grid_lon.getD rc.2 0, grid_lat.getD rc.1 0)
          (pts.filter (in_range_box
            ((grid_lon.drop (BLOCK_SIZE * (rc.2 / BLOCK_SIZE))).take
              (min (BLOCK_SIZE * (rc.2 / BLOCK_SIZE) + BLOCK_SIZE)
                grid_lon.length - BLOCK_SIZE * (rc.2 / BLOCK_SIZE)))
            ((grid_lat.drop (BLOCK_SIZE * (rc.1 / BLOCK_SIZE))).take
              (min (BLOCK_SIZE * (rc.1 / BLOCK_SIZE) + BLOCK_SIZE)
                grid_lat.length - BLOCK_SIZE * (rc.1 / BLOCK_SIZE))) D))
          D,
          0 < dist2 (grid_lon.getD rc.2 0, grid_lat.getD rc.1 0) a.2 := by
        intro a ha
        exact hpos a.2 (List.mem_of_mem_filter
          (used_neighbors_mem _ _ _ a ha))
      have hb := weighted_avg_bounds
        (grid_lon.getD rc.2 0, grid_lat.getD rc.1 0) _ hne hposnb
      rcases hb with ⟨⟨lo, hlo, hlob⟩, ⟨hi, hhi, hhib⟩⟩
      refine Or.inr ⟨lo.2, ?_, hi.2, ?_, hlob, hhib⟩
      · exact used_neighbors_mem _ _ _ lo hlo
      · exact used_neighbors_mem _ _ _ hi hhi
    · rw [if_neg hg2]
      exact Or.inl rfl

/-- Witness for C10 at a concrete input: a 1 × 1 grid with three source
points at distance `0.1` from the grid point, with values 5, 7 and 6. -/
theorem c10_output_value_bounds_witness :
    ((0, 0) : ℕ × ℕ).1 < ([(0 : ℚ)]).length ∧
      ((0, 0) : ℕ × ℕ).2 < ([(0 : ℚ)]).length ∧
      (∀ p ∈ ([(1/10, 0, 5), (0, 1/10, 7), (-1/10, 0, 6)] : List Pt),
        0 < dist2 (([(0 : ℚ)]).getD ((0, 0) : ℕ × ℕ).2 0,
          ([(0 : ℚ)]).getD ((0, 0) : ℕ × ℕ).1 0) p) ∧
      (batch_idw [(1/10, 0, 5), (0, 1/10, 7), (-1/10, 0, 6)] [0] [0] (1/2)
          (0, 0) = CUSTOM_MISSING ∨
        ∃ plo ∈ cell_candidates [(1/10, 0, 5), (0, 1/10, 7), (-1/10, 0, 6)]
            [0] [0] (1/2) (0, 0),
          ∃ phi ∈ cell_candidates [(1/10, 0, 5), (0, 1/10, 7), (-1/10, 0, 6)]
              [0] [0] (1/2) (0, 0),
            plo.2.2 ≤ batch_idw [(1/10, 0, 5), (0, 1/10, 7), (-1/10, 0, 6)]
                [0] [0] (1/2) (0, 0) ∧
              batch_idw [(1/10, 0, 5), (0, 1/10, 7), (-1/10, 0, 6)]
                [0] [0] (1/2) (0, 0) ≤ phi.2.2) := by
  have hpos : ∀ p ∈ ([(1/10, 0, 5), (0, 1/10, 7), (-1/10, 0, 6)] : List Pt),
      0 < dist2 (([(0 : ℚ)]).getD ((0, 0) : ℕ × ℕ).2 0,
        ([(0 : ℚ)]).getD ((0, 0) : ℕ × ℕ).1 0) p := by
    intro p hp
    fin_cases hp <;> norm_num [dist2]
  exact ⟨by norm_num, by norm_num, hpos,
    c10_output_value_bounds [(1/10, 0, 5), (0, 1/10, 7), (-1/10, 0, 6)]
      [0] [0] (1/2) (0, 0) (by norm_num) (by norm_num) hpos⟩
